import Mathlib

/-!
Verification development for the geo-audit repository.

The Python sources under src/geo_audit are shallowly embedded below:
pure functions become Lean functions, Python `int` becomes `Nat`/`Int`
(all quantities here are non-negative counts and scores), Python `float`
arithmetic is modelled by exact rational arithmetic over `ℚ`, Python
strings are modelled by `String` (with character-level scanning done on
`String.data : List Char`; case folding is modelled by `Char.toLower`,
which agrees with Python `str.lower` on ASCII), and network effects are
modelled by explicit outcome values passed to the embedded functions.
-/

namespace GeoAudit

/-- Severity level for audit findings (models.py `Severity`). -/
inductive Severity where
  | pass
  | info
  | warning
  | error
deriving DecidableEq

/-- A single audit finding (models.py `Finding`).  Optional fields keep the
Python `None` default as `Option.none`. -/
structure Finding where
  check : String
  message : String
  severity : Severity
  details : Option String := none
  fix_hint : Option String := none
  impact : Nat := 1
deriving DecidableEq

/-- Result of a single check category (models.py `CheckResult`). -/
structure CheckResult where
  name : String
  score : Nat
  max_score : Nat
  findings : List Finding := []
deriving DecidableEq

/-- Complete audit result for a URL (models.py `AuditResult`). -/
structure AuditResult where
  url : String
  final_url : String
  checks : List CheckResult := []
  fetch_time_ms : Nat := 0
  error : Option String := none
deriving DecidableEq

/-- Python truthiness of an `Optional[str]` value: `None` and the empty
string are falsy, every other string is truthy. -/
def truthyStr : Option String → Bool
  | none => false
  | some s => s != ""

/-- Sum of `c.score` over the checks, as in `AuditResult.total_score`. -/
def sumScores (r : AuditResult) : Nat :=
  (r.checks.map (fun c => c.score)).sum

/-- Sum of `c.max_score` over the checks, as in `AuditResult.total_score`. -/
def sumMax (r : AuditResult) : Nat :=
  (r.checks.map (fun c => c.max_score)).sum

/-! `AuditResult.total_score` evaluates `int((total / max_total) * 100)`
in IEEE-754 binary64 ("double") arithmetic, which Python floats use:
`total / max_total` is the correctly rounded double of the exact integer
quotient (CPython's int true division is correctly rounded also for big
integers), the product with 100 is again correctly rounded, and `int()`
truncates toward zero.  The rounding is modelled exactly with integer
mantissa/exponent pairs: a non-negative double is `mant * 2 ^ exp` with
`mant < 2 ^ 53` and `exp ≥ -1074` (values below `2 ^ -1022` sit on the
fixed subnormal grid `2 ^ -1074`).  Quotients at or above `2 ^ 1024`,
where Python raises OverflowError instead of returning a float, are
outside the model. -/

/-- Fuel-driven floor of log2 (`log2Go n n` peels one bit per step, so
the fuel `n` is ample); 0 for inputs 0 and 1. -/
def log2Go : Nat → Nat → Nat
  | 0, _ => 0
  | fuel + 1, n => if n < 2 then 0 else log2Go fuel (n / 2) + 1

/-- Floor of log2 of a natural number (0 for 0). -/
def natLog2 (n : Nat) : Nat := log2Go n n

/-- Whether `2 ^ e ≤ t / m` for an integer exponent, decided in integer
arithmetic. -/
def le2pow (e : Int) (t m : Nat) : Bool :=
  if 0 ≤ e then decide (m * 2 ^ e.toNat ≤ t) else decide (m ≤ t * 2 ^ (-e).toNat)

/-- Floor of log2 of the rational `t / m` (for `t, m ≥ 1`): the bit-length
difference is off by at most one, so it is corrected by direct
comparison. -/
def floorLog2 (t m : Nat) : Int :=
  let est : Int := (natLog2 t : Int) - (natLog2 m : Int)
  if le2pow (est + 1) t m then est + 1
  else if le2pow est t m then est
  else est - 1

/-- Round `N / D` to the nearest integer, ties to even — the rounding
mode of IEEE-754 binary64. -/
def rneDiv (N D : Nat) : Nat :=
  let q := N / D
  let r := N % D
  if 2 * r < D then q
  else if D < 2 * r then q + 1
  else if q % 2 = 0 then q else q + 1

/-- The double nearest to `t / m` (for `t, m ≥ 1`), as a mantissa and a
grid exponent: the grid is `2 ^ (⌊log2(t/m)⌋ - 52)`, clamped at the
subnormal grid `2 ^ -1074`; the mantissa is the nearest-even multiple. -/
def floatDiv (t m : Nat) : Nat × Int :=
  let e : Int := max (floorLog2 t m - 52) (-1074)
  if 0 ≤ e then (rneDiv t (m * 2 ^ e.toNat), e)
  else (rneDiv (t * 2 ^ (-e).toNat) m, e)

/-- The double product of `mant * 2 ^ exp` with 100: the exact integer
product `mant * 100` is rounded back to at most 53 significant bits
(`shift` is 0 when the product already fits, so the result is exact). -/
def floatMul100 (d : Nat × Int) : Nat × Int :=
  let v := d.1 * 100
  let shift := natLog2 (v / 2 ^ 52)
  if shift = 0 then (v, d.2) else (rneDiv v (2 ^ shift), d.2 + shift)

/-- Python `int()` of the non-negative double `mant * 2 ^ exp`:
truncation toward zero, i.e. the floor, which for a negative exponent is
natural-number division. -/
def floatToInt (d : Nat × Int) : Nat :=
  if 0 ≤ d.2 then d.1 * 2 ^ d.2.toNat else d.1 / 2 ^ (-d.2).toNat

/-- Python `int((t / m) * 100)` for integers `t ≥ 0`, `m ≥ 1`: both float
operations correctly rounded, then truncated. -/
def pyIntDivMul100 (t m : Nat) : Nat :=
  if t = 0 then 0 else floatToInt (floatMul100 (floatDiv t m))

/-- models.py `AuditResult.total_score`: returns 0 for an empty checks
list, otherwise `int((total / max_total) * 100)` — evaluated in double
precision, as Python does — when `max_total > 0`, and 0 otherwise. -/
def AuditResult.total_score (r : AuditResult) : Nat :=
  match r.checks with
  | [] => 0
  | _ :: _ => if 0 < sumMax r then pyIntDivMul100 (sumScores r) (sumMax r) else 0

/-- The rational value of a mantissa/exponent pair. -/
def fval (d : Nat × Int) : ℚ :=
  (d.1 : ℚ) * (2 : ℚ) ^ d.2

/-- The filter used by `AuditResult.quick_wins` (models.py line 63):
`finding.severity in (Severity.ERROR, Severity.WARNING) and finding.fix_hint`.
The second conjunct is Python truthiness, so an empty-string `fix_hint`
is rejected exactly like `None`. -/
def eligibleFinding (f : Finding) : Bool :=
  (f.severity == Severity.error || f.severity == Severity.warning)
    && truthyStr f.fix_hint

/-- All findings of an audit in check order then finding order — the
iteration order of the nested loops in `AuditResult.quick_wins`. -/
def allFindings (r : AuditResult) : List Finding :=
  r.checks.flatMap (fun c => c.findings)

/-- Stable insertion of a finding into a list already sorted by
descending `impact`: the new element goes before the first element whose
impact is not greater, so among equal impacts an earlier-inserted (i.e.
earlier-in-input) element stays first. -/
def insertDesc (f : Finding) : List Finding → List Finding
  | [] => [f]
  | g :: l => if f.impact < g.impact then g :: insertDesc f l else f :: g :: l

/-- Stable sort by descending `impact`, the embedding of Python's
`sorted(all_findings, key=lambda f: f.impact, reverse=True)` (Python's
sort is stable: ties keep input order). -/
def sortDesc : List Finding → List Finding
  | [] => []
  | f :: rest => insertDesc f (sortDesc rest)

/-- models.py `AuditResult.quick_wins`: filter the findings in iteration
order, stably sort by descending impact, keep the first 5. -/
def AuditResult.quick_wins (r : AuditResult) : List Finding :=
  (sortDesc ((allFindings r).filter eligibleFinding)).take 5

/-! Facts about the stable sort used by `quick_wins`. -/

theorem insertDesc_perm (f : Finding) (l : List Finding) :
    (insertDesc f l).Perm (f :: l) := by
  induction l with
  | nil => simp [insertDesc]
  | cons g t ih =>
    by_cases h : f.impact < g.impact
    · simpa [insertDesc, h] using ((ih.cons g).trans (List.Perm.swap f g t))
    · simp [insertDesc, h]

theorem sortDesc_perm (l : List Finding) : (sortDesc l).Perm l := by
  induction l with
  | nil => simp [sortDesc]
  | cons f rest ih =>
    exact (insertDesc_perm f (sortDesc rest)).trans (ih.cons f)

theorem mem_insertDesc {x f : Finding} {l : List Finding} :
    x ∈ insertDesc f l ↔ x = f ∨ x ∈ l := by
  constructor
  · intro hx
    have := (insertDesc_perm f l).mem_iff.mp hx
    simpa using this
  · intro hx
    apply (insertDesc_perm f l).mem_iff.mpr
    simpa using hx

theorem pairwise_insertDesc (f : Finding) (l : List Finding)
    (h : l.Pairwise (fun a b => b.impact ≤ a.impact)) :
    (insertDesc f l).Pairwise (fun a b => b.impact ≤ a.impact) := by
  induction l with
  | nil => simp [insertDesc]
  | cons g t ih =>
    rcases List.pairwise_cons.mp h with ⟨hg, ht⟩
    by_cases hlt : f.impact < g.impact
    · rw [insertDesc, if_pos hlt]
      refine List.pairwise_cons.mpr ⟨?_, ih ht⟩
      intro x hx
      rcases mem_insertDesc.mp hx with rfl | hx
      · exact Nat.le_of_lt hlt
      · exact hg x hx
    · rw [insertDesc, if_neg hlt]
      refine List.pairwise_cons.mpr ⟨?_, h⟩
      intro x hx
      rcases List.mem_cons.mp hx with rfl | hx
      · exact Nat.le_of_not_lt hlt
      · exact le_trans (hg x hx) (Nat.le_of_not_lt hlt)

theorem sortDesc_pairwise (l : List Finding) :
    (sortDesc l).Pairwise (fun a b => b.impact ≤ a.impact) := by
  induction l with
  | nil => simp [sortDesc]
  | cons f rest ih => exact pairwise_insertDesc f (sortDesc rest) ih

theorem filter_insertDesc (f : Finding) (l : List Finding) (v : Nat)
    (h : l.Pairwise (fun a b => b.impact ≤ a.impact)) :
    (insertDesc f l).filter (fun x => x.impact == v) =
      (if f.impact == v then [f] else []) ++ l.filter (fun x => x.impact == v) := by
  induction l with
  | nil => cases hfv : (f.impact == v) <;> simp [insertDesc, List.filter, hfv]
  | cons g t ih =>
    rcases List.pairwise_cons.mp h with ⟨hg, ht⟩
    by_cases hlt : f.impact < g.impact
    · rw [insertDesc, if_pos hlt]
      cases hfv : (f.impact == v) with
      | false => simp only [List.filter_cons, ih ht, hfv, if_neg, List.nil_append,
          Bool.false_eq_true, ite_false]
      | true =>
        have hf : f.impact = v := by simpa using hfv
        have hgv : (g.impact == v) = false := by
          simp only [beq_eq_false_iff_ne, ne_eq]
          omega
        simp [List.filter_cons, ih ht, hfv, hgv]
    · rw [insertDesc, if_neg hlt]
      cases hfv : (f.impact == v) <;> simp [List.filter_cons, hfv]

theorem sortDesc_filter_stable (l : List Finding) (v : Nat) :
    (sortDesc l).filter (fun x => x.impact == v) =
      l.filter (fun x => x.impact == v) := by
  induction l with
  | nil => simp [sortDesc]
  | cons f rest ih =>
    rw [sortDesc, filter_insertDesc f (sortDesc rest) v (sortDesc_pairwise rest), ih,
      List.filter_cons]
    cases hfv : (f.impact == v) <;> simp [hfv]

/-! Brand-visibility tester data model (tester/runner.py, tester/providers.py). -/

/-- Response from an LLM (providers.py `LLMResponse`). -/
structure LLMResponse where
  provider : String
  model : String
  prompt : String
  response : String
  mentions_brand : Bool
  mention_context : Option String
  latency_ms : Nat
  error : Option String := none
deriving DecidableEq

/-- Result from testing a single LLM (runner.py `LLMResult`). -/
structure LLMResult where
  provider : String
  model : String
  responses : List LLMResponse := []
deriving DecidableEq

/-- runner.py `LLMResult.mention_rate`: 0.0 for an empty response list,
otherwise `(mentions / len(responses)) * 100` — exact rational arithmetic
models the Python float expression. -/
def LLMResult.mention_rate (r : LLMResult) : ℚ :=
  match r.responses with
  | [] => 0
  | _ :: _ =>
    (((r.responses.filter (fun x => x.mentions_brand)).length : ℚ)
      / (r.responses.length : ℚ)) * 100

/-- runner.py `LLMResult.error_count`: `sum(1 for r in responses if r.error)`.
The condition is Python truthiness of the optional string, so an
empty-string error is not counted. -/
def LLMResult.error_count (r : LLMResult) : Nat :=
  (r.responses.filter (fun x => truthyStr x.error)).length

/-- Complete test result across all LLMs (runner.py `TestResult`). -/
structure TestResult where
  brand : String
  industry : Option String := none
  llm_results : List LLMResult := []
deriving DecidableEq

/-- The provider weight table of `TestResult.overall_visibility`
(`weights.get(result.provider, 1)`). -/
def weightOf (provider : String) : Nat :=
  if provider = "OpenAI" then 3
  else if provider = "Google" then 2
  else if provider = "Anthropic" then 1
  else if provider = "Perplexity" then 2
  else 1

/-- One iteration of the accumulation loop in `overall_visibility`:
a provider result contributes its weight and `mention_rate * weight`
exactly when `error_count < len(responses)`. -/
def visStep (acc : Nat × ℚ) (r : LLMResult) : Nat × ℚ :=
  if r.error_count < r.responses.length then
    (acc.1 + weightOf r.provider, acc.2 + r.mention_rate * (weightOf r.provider : ℚ))
  else acc

/-- runner.py `TestResult.overall_visibility`: 0.0 for an empty result
list; otherwise accumulate `(total_weight, weighted_sum)` over the
results and return `weighted_sum / total_weight`, or 0.0 if the total
weight is 0. -/
def TestResult.overall_visibility (t : TestResult) : ℚ :=
  match t.llm_results with
  | [] => 0
  | _ :: _ =>
    let acc := t.llm_results.foldl visStep (0, 0)
    if acc.1 = 0 then 0 else acc.2 / (acc.1 : ℚ)

/-! Brand-mention detection (providers.py `LLMProvider._check_mention`). -/

/-- Character-wise lower casing, the model of Python `str.lower` (exact
on ASCII, which is all the algorithm distinguishes). -/
def lowerChars (s : List Char) : List Char :=
  s.map Char.toLower

/-- Python `str.find`: index of the first occurrence of `pat` in the
list, `none` when there is no occurrence (Python returns -1).  An empty
pattern is found at index 0, as in Python. -/
def pyFind (pat : List Char) : List Char → Option Nat
  | [] => if pat.isPrefixOf ([] : List Char) then some 0 else none
  | c :: t =>
    if pat.isPrefixOf (c :: t) then some 0
    else (pyFind pat t).map (fun i => i + 1)

/-- The three searched variants of the brand (providers.py line 45):
the lower-cased brand, then the same with spaces removed, then with
hyphens removed. -/
def variationsOf (brand : String) : List (List Char) :=
  let bl := lowerChars brand.data
  [bl, bl.filter (fun c => c ≠ ' '), bl.filter (fun c => c ≠ '-')]

/-- Context extraction around a match (providers.py lines 51-57):
`start = max(0, idx - 50)`, `end = min(len(text), idx + len(variant) + 100)`,
slice the ORIGINAL text, prefix `"..."` when `start > 0`, suffix `"..."`
when `end < len(text)`. -/
def mkContext (text : List Char) (idx vlen : Nat) : String :=
  let start := idx - 50
  let stop := min text.length (idx + vlen + 100)
  let ctx := (text.drop start).take (stop - start)
  let ctx := if 0 < start then "...".data ++ ctx else ctx
  let ctx := if stop < text.length then ctx ++ "...".data else ctx
  String.mk ctx

/-- The `for variant in variations` loop of `_check_mention`: return on
the first variant found in the lower-cased text. -/
def mentionLoop (text textLower : List Char) : List (List Char) → Bool × Option String
  | [] => (false, none)
  | v :: vs =>
    match pyFind v textLower with
    | some idx => (true, some (mkContext text idx v.length))
    | none => mentionLoop text textLower vs

/-- providers.py `LLMProvider._check_mention`: case-insensitive search of
the brand variants in the text, with a context snippet on a hit. -/
def check_mention (text brand : String) : Bool × Option String :=
  mentionLoop text.data (lowerChars text.data) (variationsOf brand)

/-! JSON-LD model and the structured_data check (checks/structured_data.py).
JSON values are modelled by an inductive type; objects carry their
key/value pairs in order, with keys unique (as produced by a JSON parser). -/

inductive Json where
  | null
  | bool (b : Bool)
  | num (n : Int)
  | str (s : String)
  | arr (elems : List Json)
  | obj (fields : List (String × Json))

/-- First binding of a key in an object field list (objects have unique
keys, so this is plain dict lookup). -/
def lookupKey (kvs : List (String × Json)) (k : String) : Option Json :=
  (kvs.find? (fun p => p.1 == k)).map (fun p => p.2)

/-- Dict lookup `data[k]` returning `none` when `k` is absent or the
value is not an object. -/
def Json.getKey : Json → String → Option Json
  | .obj kvs, k => lookupKey kvs k
  | _, _ => none

/-- Python `k in data` for an object. -/
def Json.hasKey (j : Json) (k : String) : Bool :=
  (j.getKey k).isSome

/-- The strings contributed to the type set by one `@type` value: a
string contributes itself, a list contributes its string elements
(`types.update(type_val)`); non-string scalars can never equal a schema
name so they are dropped from this observation. -/
def typeNames : Json → List String
  | .str s => [s]
  | .arr l => l.filterMap (fun j => match j with | .str s => some s | _ => none)
  | _ => []

mutual

/-- Types collected from an object's fields: its `@type` value plus,
recursively, the types of every object inside its `@graph` array
(structured_data.py `get_schema_types`). -/
def objSchemaTypes : List (String × Json) → List String
  | [] => []
  | (k, v) :: rest =>
    (if k = "@type" then typeNames v else [])
      ++ (if k = "@graph" then graphSchemaTypes v else [])
      ++ objSchemaTypes rest

/-- Types of the items of a `@graph` value (only a JSON array is
iterated; only dict items are recursed into). -/
def graphSchemaTypes : Json → List String
  | .arr items => itemsSchemaTypes items
  | _ => []

/-- Types of each dict item of a `@graph` array. -/
def itemsSchemaTypes : List Json → List String
  | [] => []
  | .obj kvs :: rest => objSchemaTypes kvs ++ itemsSchemaTypes rest
  | _ :: rest => itemsSchemaTypes rest

end

/-- structured_data.py `get_schema_types`, as the list of collected type
names (the Python function returns a set; only membership and the
alphabetically sorted intersection with fixed string sets are ever
observed, so a list with possible duplicates is a faithful model). -/
def get_schema_types : Json → List String
  | .obj kvs => objSchemaTypes kvs
  | _ => []

/-- structured_data.py `extract_json_ld`: each decoded script block is
appended, a top-level array is spliced (`results.extend`), and
undecodable blocks (`none`) are skipped. -/
def extract_json_ld (scripts : List (Option Json)) : List Json :=
  scripts.foldr
    (fun s acc =>
      match s with
      | none => acc
      | some (.arr l) => l ++ acc
      | some j => j :: acc)
    []

/-- `HIGH_VALUE_SCHEMAS` in ascending (Python `sorted`) order. -/
def highValueSorted : List String :=
  ["Article", "BlogPosting", "Course", "Event", "FAQPage", "HowTo",
   "LocalBusiness", "Organization", "Person", "Product", "Recipe",
   "Service", "SoftwareApplication", "WebApplication"]

/-- `RECOMMENDED_ORG_FIELDS` in ascending (Python `sorted`) order. -/
def orgFieldsSorted : List String :=
  ["contactPoint", "description", "logo", "name", "sameAs", "url"]

/-- Python `", ".join(...)`. -/
def joinComma (l : List String) : String :=
  String.intercalate ", " l

/-- All types over all blocks (`all_types`). -/
def allTypes (blocks : List Json) : List String :=
  blocks.flatMap get_schema_types

/-- `sorted(all_types.intersection(HIGH_VALUE_SCHEMAS))`: filtering the
alphabetized high-value list by membership yields exactly the sorted
intersection. -/
def foundHighValue (blocks : List Json) : List String :=
  highValueSorted.filter (fun s => (allTypes blocks).contains s)

/-- The per-block test of the Organization-completeness loop:
`"Organization" in types or "LocalBusiness" in types`. -/
def isOrgBlock (d : Json) : Bool :=
  (get_schema_types d).contains "Organization"
    || (get_schema_types d).contains "LocalBusiness"

/-- `sorted(RECOMMENDED_ORG_FIELDS - set(data.keys()))`: the recommended
fields, in alphabetical order, that the block itself does not carry as
top-level keys.  Note the source inspects `data.keys()` of the block the
loop stopped at, not the keys of a nested Organization object. -/
def missingOrgFields (d : Json) : List String :=
  orgFieldsSorted.filter (fun f => !(d.hasKey f))

/-- The per-block test of the sameAs loop: the block has a `sameAs` key
whose value is a list of length at least 2. -/
def hasSameAs2 (d : Json) : Bool :=
  match d.getKey "sameAs" with
  | some (.arr l) => decide (2 ≤ l.length)
  | _ => false

/-- Length of the qualifying `sameAs` list, used in the PASS message. -/
def sameAsLen (d : Json) : Nat :=
  match d.getKey "sameAs" with
  | some (.arr l) => l.length
  | _ => 0

def sdNoJsonLd : Finding :=
  { check := "structured_data", message := "No JSON-LD structured data found",
    severity := Severity.error,
    details := some "JSON-LD helps LLMs understand your content structure and entity relationships.",
    fix_hint := some "Add at minimum an Organization schema. Use Google\x27s Structured Data Markup Helper.",
    impact := 8 }

def sdBasePass (n : Nat) : Finding :=
  { check := "structured_data",
    message := "Found " ++ toString n ++ " JSON-LD block(s)",
    severity := Severity.pass }

def sdHvPass (names : String) : Finding :=
  { check := "structured_data",
    message := "High-value schemas found: " ++ names,
    severity := Severity.pass }

def sdHvWarn : Finding :=
  { check := "structured_data", message := "No high-value schema types found",
    severity := Severity.warning,
    details := some "Consider adding: Organization, Product, Article, FAQPage, or HowTo",
    fix_hint := some "Add Organization schema at minimum - helps LLMs identify your brand.",
    impact := 7 }

def sdOrgInfo (missing : List String) : Finding :=
  { check := "structured_data",
    message := "Organization schema missing recommended fields",
    severity := Severity.info,
    details := some ("Missing: " ++ joinComma missing),
    fix_hint := some ("Add " ++ joinComma missing ++ " to your Organization schema"),
    impact := 4 }

def sdOrgPass : Finding :=
  { check := "structured_data",
    message := "Organization schema has all recommended fields",
    severity := Severity.pass }

def sdNoOrgWarn : Finding :=
  { check := "structured_data", message := "No Organization/LocalBusiness schema",
    severity := Severity.warning,
    details := some "Organization schema establishes your brand identity for LLMs",
    fix_hint := some "Add Organization schema with name, description, logo, url, and sameAs (social links)",
    impact := 7 }

def sdSaPass (n : Nat) : Finding :=
  { check := "structured_data",
    message := "Good entity linking via sameAs (" ++ toString n ++ " links)",
    severity := Severity.pass,
    details := some "Social links help LLMs verify your brand identity" }

def sdSaInfo : Finding :=
  { check := "structured_data", message := "Missing or minimal sameAs links",
    severity := Severity.info,
    details := some "sameAs links to social profiles help LLMs connect your brand across the web",
    fix_hint := some "Add sameAs array with links to LinkedIn, Twitter, Facebook, Wikipedia if applicable",
    impact := 5 }

/-- The +10 high-value contribution of the check. -/
def hvPoints (blocks : List Json) : Nat :=
  if foundHighValue blocks = [] then 0 else 10

/-- The +5 Organization-completeness contribution: the first block whose
collected types contain Organization/LocalBusiness must itself carry all
recommended fields as top-level keys. -/
def orgPoints (blocks : List Json) : Nat :=
  match blocks.find? isOrgBlock with
  | some d => if missingOrgFields d = [] then 5 else 0
  | none => 0

/-- The +5 sameAs contribution. -/
def saPoints (blocks : List Json) : Nat :=
  match blocks.find? hasSameAs2 with
  | some _ => 5
  | none => 0

def hvFindings (blocks : List Json) : List Finding :=
  if foundHighValue blocks = [] then [sdHvWarn]
  else [sdHvPass (joinComma (foundHighValue blocks))]

def orgFindings (blocks : List Json) : List Finding :=
  match blocks.find? isOrgBlock with
  | some d =>
    if missingOrgFields d = [] then [sdOrgPass] else [sdOrgInfo (missingOrgFields d)]
  | none => []

def noOrgFindings (blocks : List Json) : List Finding :=
  if (blocks.find? isOrgBlock).isNone
      && !((allTypes blocks).contains "Organization")
      && !((allTypes blocks).contains "LocalBusiness")
  then [sdNoOrgWarn] else []

def saFindings (blocks : List Json) : List Finding :=
  match blocks.find? hasSameAs2 with
  | some d => [sdSaPass (sameAsLen d)]
  | none => [sdSaInfo]

/-- structured_data.py `check_structured_data`, applied to the extracted
JSON-LD blocks: ERROR and score 0 when there are none; otherwise 5 base
points plus the high-value, Organization-completeness and sameAs
contributions, with the findings in source emission order. -/
def check_structured_data (blocks : List Json) : CheckResult :=
  match blocks with
  | [] =>
    { name := "Structured Data", score := 0, max_score := 25,
      findings := [sdNoJsonLd] }
  | _ :: _ =>
    { name := "Structured Data",
      score := 5 + hvPoints blocks + orgPoints blocks + saPoints blocks,
      max_score := 25,
      findings := [sdBasePass blocks.length] ++ hvFindings blocks
        ++ orgFindings blocks ++ noOrgFindings blocks ++ saFindings blocks }

/-! Auxiliary HTTP fetches and the llms_txt check (checks/llms_txt.py).
An auxiliary fetch either yields a response or fails on the network; the
source catches `httpx.RequestError`, which is modelled by `none`. -/

/-- An HTTP response as the checks observe it: status code, the
`content-type` header (`headers.get("content-type", "")`), body text. -/
structure HttpResponse where
  status : Nat
  contentType : String := ""
  body : String := ""
deriving DecidableEq

/-- Python whitespace characters stripped by `str.strip()` (ASCII part). -/
def isPySpace (c : Char) : Bool :=
  c = ' ' || c = '\t' || c = '\n' || c = '\r' || c = '\x0b' || c = '\x0c'

/-- Python `str.strip()`: drop leading and trailing whitespace. -/
def pyStrip (s : List Char) : List Char :=
  ((s.dropWhile isPySpace).reverse.dropWhile isPySpace).reverse

/-- Python `str.split("\n")`: split at every newline, keeping empty
pieces; the empty string yields one empty piece. -/
def splitLines : List Char → List (List Char)
  | [] => [[]]
  | c :: rest =>
    if c = '\n' then [] :: splitLines rest
    else
      match splitLines rest with
      | [] => [[c]]
      | h :: t => (c :: h) :: t

/-- llms_txt.py line 39: `lines = basic_content.strip().split("\n")`, and
the quality gate compares `len(lines)` with 3.  Interior empty lines are
counted like any other line. -/
def lineCount (body : String) : Nat :=
  (splitLines (pyStrip body.data)).length

/-- The 200-with-text-content-type test applied to both llms.txt fetches. -/
def textOk (r : HttpResponse) : Bool :=
  r.status == 200 && "text/".data.isPrefixOf r.contentType.data

def ltShortWarn (n : Nat) : Finding :=
  { check := "llms_txt", message := "llms.txt exists but is very short",
    severity := Severity.warning,
    details := some ("Only " ++ toString n ++ " lines. Consider adding more context."),
    fix_hint := some "Add company description, key products/services, and important pages.",
    impact := 6 }

def ltGoodPass (n : Nat) : Finding :=
  { check := "llms_txt", message := "llms.txt found with good content",
    severity := Severity.pass,
    details := some (toString n ++ " lines of content") }

def ltHeaderInfo : Finding :=
  { check := "llms_txt", message := "llms.txt lacks markdown headers",
    severity := Severity.info,
    details := some "Using # headers helps LLMs parse sections",
    fix_hint := some "Add sections like # About, # Products, # Contact",
    impact := 3 }

def ltFullPass : Finding :=
  { check := "llms_txt", message := "llms-full.txt found (extended version)",
    severity := Severity.pass,
    details := some "Extended version provides more context for LLMs" }

def ltMissingErr : Finding :=
  { check := "llms_txt", message := "No llms.txt file found",
    severity := Severity.error,
    details := some "llms.txt helps AI systems understand your site. Only 0.3% of top sites have this - easy win!",
    fix_hint := some "Create /llms.txt with: company name, description, key pages, and contact info. See llmstxt.org",
    impact := 9 }

/-- `has_basic` of the source: the /llms.txt fetch succeeded with a text
content-type; a network failure (`none`) behaves like any non-qualifying
response. -/
def hasBasic : Option HttpResponse → Bool
  | some r => textOk r
  | none => false

/-- Score contributed by the /llms.txt branch: +15 when present, +5 more
when `len(lines) >= 3`. -/
def basicPoints : Option HttpResponse → Nat
  | some r => if textOk r then (if lineCount r.body < 3 then 15 else 20) else 0
  | none => 0

/-- Findings of the /llms.txt branch, in source order: the quality
finding, then the missing-markdown-header INFO. -/
def basicFindings : Option HttpResponse → List Finding
  | some r =>
    if textOk r then
      (if lineCount r.body < 3 then [ltShortWarn (lineCount r.body)]
       else [ltGoodPass (lineCount r.body)])
        ++ (if !(r.body.data.contains '#') then [ltHeaderInfo] else [])
    else []
  | none => []

/-- `has_full` and the /llms-full.txt branch. -/
def hasFull : Option HttpResponse → Bool
  | some r => textOk r
  | none => false

def fullPoints (full : Option HttpResponse) : Nat :=
  if hasFull full then 5 else 0

def fullFindings (full : Option HttpResponse) : List Finding :=
  if hasFull full then [ltFullPass] else []

/-- llms_txt.py `check_llms_txt`, as a function of the two auxiliary
fetch outcomes. -/
def check_llms_txt (basic full : Option HttpResponse) : CheckResult :=
  { name := "llms.txt",
    score := basicPoints basic + fullPoints full,
    max_score := 25,
    findings := basicFindings basic ++ fullFindings full
      ++ (if !(hasBasic basic) && !(hasFull full) then [ltMissingErr] else []) }

/-! The technical check (checks/technical.py). -/

/-- Scheme of a URL as `urlparse(final_url).scheme` observes it: the part
before `"://"`, empty when the URL carries no such separator. -/
def urlScheme (u : String) : String :=
  match pyFind "://".data u.data with
  | some i => String.mk (u.data.take i)
  | none => ""

/-- The fixed AI-crawler list scanned in robots.txt. -/
def aiCrawlers : List String :=
  ["gptbot", "chatgpt", "anthropic", "claude", "google-extended", "ccbot"]

/-- technical.py lines 63-69: the crawler is blocked when
`"user-agent: {crawler}"` occurs in the lower-cased robots.txt and
`"disallow: /"` occurs within the 200 characters from that position. -/
def crawlerBlocked (body : String) (crawler : String) : Bool :=
  let content := lowerChars body.data
  match pyFind ("user-agent: " ++ crawler).data content with
  | some idx => (pyFind "disallow: /".data ((content.drop idx).take 200)).isSome
  | none => false

def tHttpsPass : Finding :=
  { check := "technical", message := "HTTPS enabled ✓", severity := Severity.pass }

def tHttpsWarn : Finding :=
  { check := "technical", message := "Not using HTTPS",
    severity := Severity.warning,
    details := some "HTTPS is a trust signal",
    fix_hint := some "Enable HTTPS on your site",
    impact := 5 }

def tRobotsBlockedWarn (blocked : List String) : Finding :=
  { check := "technical",
    message := "AI crawlers blocked: " ++ joinComma blocked,
    severity := Severity.warning,
    details := some "Blocking AI crawlers reduces LLM training/indexing",
    fix_hint := some "Consider allowing GPTBot and other AI crawlers if you want LLM visibility",
    impact := 6 }

def tRobotsCleanPass : Finding :=
  { check := "technical", message := "No AI crawler blocks detected",
    severity := Severity.pass }

def tRobotsAbsentInfo : Finding :=
  { check := "technical",
    message := "No robots.txt (all crawlers allowed by default)",
    severity := Severity.info }

def tRobotsFailInfo : Finding :=
  { check := "technical", message := "Could not check robots.txt",
    severity := Severity.info }

def tSitemapPass : Finding :=
  { check := "technical", message := "sitemap.xml found ✓", severity := Severity.pass }

def tSitemapInfo : Finding :=
  { check := "technical", message := "No sitemap.xml found",
    severity := Severity.info,
    details := some "Sitemaps help crawlers discover content",
    fix_hint := some "Add a sitemap.xml file",
    impact := 3 }

def tViewportPass : Finding :=
  { check := "technical", message := "Mobile viewport set ✓", severity := Severity.pass }

def tViewportInfo : Finding :=
  { check := "technical", message := "No viewport meta tag",
    severity := Severity.info,
    details := some "Mobile-friendliness is a ranking factor",
    fix_hint := some "Add <meta name=\x27viewport\x27 content=\x27width=device-width, initial-scale=1\x27>",
    impact := 3 }

def tLangPass (lang : String) : Finding :=
  { check := "technical", message := "Language declared: " ++ lang,
    severity := Severity.pass }

def tLangInfo : Finding :=
  { check := "technical", message := "No language declaration",
    severity := Severity.info,
    details := some "Language helps LLMs serve content to right audiences",
    fix_hint := some "Add lang attribute to <html> tag",
    impact := 2 }

/-- HTTPS part of the technical check: (points, findings). -/
def httpsPart (scheme : String) : Nat × List Finding :=
  if scheme = "https" then (2, [tHttpsPass]) else (0, [tHttpsWarn])

/-- robots.txt part: a network failure (`none`, the
`except httpx.RequestError` path) yields an INFO "Could not check
robots.txt" and no points; a non-200 response yields +2 and the
absent-INFO; a 200 response is scanned for blocked AI crawlers. -/
def robotsPart : Option HttpResponse → Nat × List Finding
  | none => (0, [tRobotsFailInfo])
  | some r =>
    if r.status == 200 then
      let blocked := aiCrawlers.filter (crawlerBlocked r.body)
      if blocked = [] then (3, [tRobotsCleanPass])
      else (0, [tRobotsBlockedWarn blocked])
    else (2, [tRobotsAbsentInfo])

/-- sitemap.xml part: a network failure adds nothing at all; a response
qualifies with status 200 and an xml content-type. -/
def sitemapPart : Option HttpResponse → Nat × List Finding
  | none => (0, [])
  | some r =>
    if r.status == 200 && (pyFind "xml".data r.contentType.data).isSome
    then (2, [tSitemapPass])
    else (0, [tSitemapInfo])

/-- Viewport meta tag part. -/
def viewportPart (hasViewport : Bool) : Nat × List Finding :=
  if hasViewport then (2, [tViewportPass]) else (0, [tViewportInfo])

/-- Language declaration part: `html_tag.get("lang")` must be truthy. -/
def langPart (lang : Option String) : Nat × List Finding :=
  if truthyStr lang then (1, [tLangPass (lang.getD "")]) else (0, [tLangInfo])

/-- technical.py `check_technical`, as a function of the scheme of the
final URL, the two auxiliary fetch outcomes, and the page observations. -/
def check_technical (scheme : String) (robots sitemap : Option HttpResponse)
    (hasViewport : Bool) (lang : Option String) : CheckResult :=
  { name := "Technical",
    score := (httpsPart scheme).1 + (robotsPart robots).1 + (sitemapPart sitemap).1
      + (viewportPart hasViewport).1 + (langPart lang).1,
    max_score := 10,
    findings := (httpsPart scheme).2 ++ (robotsPart robots).2 ++ (sitemapPart sitemap).2
      ++ (viewportPart hasViewport).2 ++ (langPart lang).2 }

/-! The parsed page as the remaining checks observe it.  The markup
parser is an external collaborator; this structure records exactly the
queries the evaluators make of the parsed document. -/

structure Soup where
  /-- Text of the `<title>` tag, stripped; `""` when the tag is absent. -/
  title : String := ""
  /-- `content` attribute of `<meta name="description">`; `""` when the
  tag or attribute is absent. -/
  description : String := ""
  ogTitle : Bool := false
  ogDescription : Bool := false
  ogImage : Bool := false
  ogType : Bool := false
  ogUrl : Bool := false
  /-- `<link rel="canonical">`: `none` when absent, otherwise its `href`
  attribute (`none` when the attribute is absent). -/
  canonical : Option (Option String) := none
  /-- Decoded contents of each `<script type="application/ld+json">`
  block, `none` for a block that fails to decode. -/
  jsonLdScripts : List (Option Json) := []
  /-- Counts taken after stripping script/style/nav/footer/header/aside. -/
  h1Count : Nat := 0
  totalHeadingCount : Nat := 0
  listCount : Nat := 0
  listItemCount : Nat := 0
  tableCount : Nat := 0
  tablesWithThCount : Nat := 0
  /-- `" ".join(h.get_text().lower() for ...)` over all h1-h6 headings. -/
  headingsTextLower : String := ""
  /-- Words per `<p>` element (`len(p.get_text(strip=True).split())`). -/
  paragraphWordCounts : List Nat := []
  hasViewport : Bool := false
  htmlLang : Option String := none

/-! The meta_tags check (checks/meta_tags.py). -/

def mtTitleErr : Finding :=
  { check := "meta_tags", message := "Missing page title",
    severity := Severity.error,
    fix_hint := some "Add a descriptive <title> tag", impact := 8 }

def mtTitleShortWarn (t : String) : Finding :=
  { check := "meta_tags",
    message := "Title too short (" ++ toString t.length ++ " chars)",
    severity := Severity.warning,
    details := some ("Current: \x27" ++ t ++ "\x27"),
    fix_hint := some "Expand title to 50-60 characters with key descriptors",
    impact := 5 }

def mtTitleLongInfo (t : String) : Finding :=
  { check := "meta_tags",
    message := "Title too long (" ++ toString t.length ++ " chars)",
    severity := Severity.info,
    details := some "May be truncated in search results",
    fix_hint := some "Trim to under 60 characters", impact := 3 }

def mtTitlePass (t : String) : Finding :=
  { check := "meta_tags",
    message := "Good title length (" ++ toString t.length ++ " chars)",
    severity := Severity.pass }

/-- Title band of meta_tags: empty → ERROR, <30 chars → WARNING,
>70 chars → INFO +3, otherwise PASS +5. -/
def titlePart (t : String) : Nat × List Finding :=
  if t = "" then (0, [mtTitleErr])
  else if t.length < 30 then (0, [mtTitleShortWarn t])
  else if 70 < t.length then (3, [mtTitleLongInfo t])
  else (5, [mtTitlePass t])

def mtDescErr : Finding :=
  { check := "meta_tags", message := "Missing meta description",
    severity := Severity.error,
    details := some "Meta descriptions are often used by LLMs to summarize pages",
    fix_hint := some "Add a 150-160 character description summarizing the page",
    impact := 7 }

def mtDescShortWarn (d : String) : Finding :=
  { check := "meta_tags",
    message := "Meta description too short (" ++ toString d.length ++ " chars)",
    severity := Severity.warning,
    details := some "Short descriptions miss opportunity to provide context",
    fix_hint := some "Expand to 150-160 characters with key information",
    impact := 5 }

def mtDescLongInfo (d : String) : Finding :=
  { check := "meta_tags",
    message := "Meta description slightly long (" ++ toString d.length ++ " chars)",
    severity := Severity.info,
    details := some "May be truncated, but more content for LLMs",
    impact := 2 }

def mtDescPass (d : String) : Finding :=
  { check := "meta_tags",
    message := "Good meta description length (" ++ toString d.length ++ " chars)",
    severity := Severity.pass }

/-- Description band of meta_tags: empty → ERROR, <100 → WARNING +2,
>170 → INFO +4, otherwise PASS +5. -/
def descPart (d : String) : Nat × List Finding :=
  if d = "" then (0, [mtDescErr])
  else if d.length < 100 then (2, [mtDescShortWarn d])
  else if 170 < d.length then (4, [mtDescLongInfo d])
  else (5, [mtDescPass d])

/-- The five Open Graph tags in dict insertion order, paired with their
presence on the page. -/
def ogEntries (s : Soup) : List (String × Bool) :=
  [("og:title", s.ogTitle), ("og:description", s.ogDescription),
   ("og:image", s.ogImage), ("og:type", s.ogType), ("og:url", s.ogUrl)]

def mtOgPass (n : Nat) : Finding :=
  { check := "meta_tags",
    message := "Good Open Graph coverage (" ++ toString n ++ "/5 tags)",
    severity := Severity.pass }

def mtOgPartialInfo (n : Nat) (missing : List String) : Finding :=
  { check := "meta_tags",
    message := "Partial Open Graph tags (" ++ toString n ++ "/5)",
    severity := Severity.info,
    details := some ("Missing: " ++ joinComma missing),
    fix_hint := some "Add missing OG tags for better social sharing and LLM context",
    impact := 3 }

def mtOgWarn : Finding :=
  { check := "meta_tags", message := "Missing or minimal Open Graph tags",
    severity := Severity.warning,
    details := some "Open Graph helps LLMs and social platforms understand your content",
    fix_hint := some "Add og:title, og:description, og:image, og:type, og:url",
    impact := 4 }

/-- Open Graph part of meta_tags: ≥4 present → PASS +5, ≥2 → INFO +2,
otherwise WARNING. -/
def ogPart (s : Soup) : Nat × List Finding :=
  let present := ((ogEntries s).filter (fun p => p.2)).length
  let missing := ((ogEntries s).filter (fun p => !p.2)).map (fun p => p.1)
  if 4 ≤ present then (5, [mtOgPass present])
  else if 2 ≤ present then (2, [mtOgPartialInfo present missing])
  else (0, [mtOgWarn])

def mtCanonPass : Finding :=
  { check := "meta_tags", message := "Canonical URL set", severity := Severity.pass }

def mtCanonInfo : Finding :=
  { check := "meta_tags", message := "No canonical URL",
    severity := Severity.info,
    details := some "Canonical URLs help prevent duplicate content confusion",
    fix_hint := some "Add <link rel=\x27canonical\x27 href=\x27...\x27>",
    impact := 3 }

/-- Canonical part of meta_tags: the tag must exist and its `href` must
be truthy. -/
def canonicalPart (canonical : Option (Option String)) : Nat × List Finding :=
  match canonical with
  | some href => if truthyStr href then (5, [mtCanonPass]) else (0, [mtCanonInfo])
  | none => (0, [mtCanonInfo])

/-- meta_tags.py `check_meta_tags`. -/
def check_meta_tags (s : Soup) : CheckResult :=
  { name := "Meta Tags",
    score := (titlePart s.title).1 + (descPart s.description).1 + (ogPart s).1
      + (canonicalPart s.canonical).1,
    max_score := 20,
    findings := (titlePart s.title).2 ++ (descPart s.description).2 ++ (ogPart s).2
      ++ (canonicalPart s.canonical).2 }

/-! The content_structure check (checks/content_structure.py). -/

def csH1Err : Finding :=
  { check := "content_structure", message := "No H1 heading found",
    severity := Severity.error,
    details := some "H1 is the primary page topic signal for LLMs",
    fix_hint := some "Add one clear H1 heading that describes the page",
    impact := 7 }

def csH1MultiWarn (n : Nat) : Finding :=
  { check := "content_structure",
    message := "Multiple H1 headings (" ++ toString n ++ ")",
    severity := Severity.warning,
    details := some "Multiple H1s can confuse LLMs about page topic",
    fix_hint := some "Use only one H1, use H2+ for subsections",
    impact := 4 }

def csH1Pass : Finding :=
  { check := "content_structure", message := "Single H1 heading ✓",
    severity := Severity.pass }

/-- H1 part: 0 → ERROR, >1 → WARNING +2, exactly 1 → PASS +4. -/
def h1Part (n : Nat) : Nat × List Finding :=
  if n = 0 then (0, [csH1Err])
  else if 1 < n then (2, [csH1MultiWarn n])
  else (4, [csH1Pass])

def csHeadingsPass (n : Nat) : Finding :=
  { check := "content_structure",
    message := "Good heading structure (" ++ toString n ++ " headings)",
    severity := Severity.pass }

def csHeadingsInfo (n : Nat) : Finding :=
  { check := "content_structure",
    message := "Minimal heading structure (" ++ toString n ++ " headings)",
    severity := Severity.info,
    details := some "More headings help LLMs understand content hierarchy",
    fix_hint := some "Break content into sections with H2/H3 headings",
    impact := 3 }

/-- Total-headings part: ≥3 → PASS +2, 1-2 → INFO, 0 → nothing. -/
def headingsPart (n : Nat) : Nat × List Finding :=
  if 3 ≤ n then (2, [csHeadingsPass n])
  else if 0 < n then (0, [csHeadingsInfo n])
  else (0, [])

def csListsPass (lists items : Nat) : Finding :=
  { check := "content_structure",
    message := "Good list usage (" ++ toString lists ++ " lists, "
      ++ toString items ++ " items)",
    severity := Severity.pass,
    details := some "LLMs favor structured lists for extraction" }

def csListsSomeInfo (lists : Nat) : Finding :=
  { check := "content_structure",
    message := "Some list usage (" ++ toString lists ++ " lists)",
    severity := Severity.info,
    details := some "Lists make content easier for LLMs to quote",
    fix_hint := some "Convert appropriate content to bullet/numbered lists",
    impact := 3 }

def csListsNoneInfo : Finding :=
  { check := "content_structure", message := "No lists found",
    severity := Severity.info,
    details := some "Lists are LLM-friendly and easy to quote",
    fix_hint := some "Add bulleted lists for features, steps, or key points",
    impact := 4 }

/-- Lists part: ≥2 lists and ≥5 items → PASS +4, ≥1 list → INFO +2,
none → INFO. -/
def listsPart (lists items : Nat) : Nat × List Finding :=
  if 2 ≤ lists && 5 ≤ items then (4, [csListsPass lists items])
  else if 1 ≤ lists then (2, [csListsSomeInfo lists])
  else (0, [csListsNoneInfo])

def csTablesPass (n : Nat) : Finding :=
  { check := "content_structure",
    message := "Tables with headers found (" ++ toString n ++ ")",
    severity := Severity.pass,
    details := some "Well-structured tables are easy for LLMs to parse" }

def csTablesInfo : Finding :=
  { check := "content_structure",
    message := "Tables found but some lack headers",
    severity := Severity.info,
    fix_hint := some "Add <th> header cells to tables",
    impact := 2 }

/-- Tables part: no tables → nothing; all tables have a `<th>` → PASS +3,
otherwise INFO +1. -/
def tablesPart (tables withTh : Nat) : Nat × List Finding :=
  if 0 < tables then
    (if withTh = tables then (3, [csTablesPass tables]) else (1, [csTablesInfo]))
  else (0, [])

def faqPatterns : List String :=
  ["faq", "frequently asked", "questions", "q&a"]

def csFaqPass : Finding :=
  { check := "content_structure", message := "FAQ section detected",
    severity := Severity.pass,
    details := some "FAQs are highly quotable by LLMs" }

def csFaqInfo : Finding :=
  { check := "content_structure", message := "No FAQ section found",
    severity := Severity.info,
    details := some "FAQ sections are frequently cited by LLMs",
    fix_hint := some "Consider adding an FAQ section with common questions",
    impact := 4 }

/-- FAQ part: any of the patterns occurs in the joined lower-cased
heading text → PASS +3, otherwise INFO. -/
def faqPart (headingsTextLower : String) : Nat × List Finding :=
  if faqPatterns.any (fun p => (pyFind p.data headingsTextLower.data).isSome)
  then (3, [csFaqPass]) else (0, [csFaqInfo])

/-- Rendering of `f"{avg_length:.0f}"` for the PASS message: rounding to
the nearest integer (Python's tie-to-even differs only at exact .5 ties). -/
def fmtAvg (q : ℚ) : String :=
  toString (round q)

def csParasPass (avg : ℚ) : Finding :=
  { check := "content_structure",
    message := "Good paragraph length (avg " ++ fmtAvg avg ++ " words)",
    severity := Severity.pass }

def csParasInfo (longCount : Nat) : Finding :=
  { check := "content_structure",
    message := toString longCount ++ " long paragraphs (>100 words)",
    severity := Severity.info,
    details := some "Long paragraphs are harder for LLMs to quote",
    fix_hint := some "Break long paragraphs into smaller chunks",
    impact := 3 }

/-- Paragraph part: with no paragraphs, nothing; otherwise mean word
count < 60 with no >100-word paragraph → PASS +4; any >100-word
paragraph → INFO +2; otherwise nothing. -/
def parasPart (lens : List Nat) : Nat × List Finding :=
  match lens with
  | [] => (0, [])
  | _ :: _ =>
    let avg : ℚ := (lens.sum : ℚ) / (lens.length : ℚ)
    let longCount := (lens.filter (fun n => 100 < n)).length
    if avg < 60 ∧ longCount = 0 then (4, [csParasPass avg])
    else if 0 < longCount then (2, [csParasInfo longCount])
    else (0, [])

/-- content_structure.py `check_content_structure`. -/
def check_content_structure (s : Soup) : CheckResult :=
  { name := "Content Structure",
    score := (h1Part s.h1Count).1 + (headingsPart s.totalHeadingCount).1
      + (listsPart s.listCount s.listItemCount).1
      + (tablesPart s.tableCount s.tablesWithThCount).1
      + (faqPart s.headingsTextLower).1 + (parasPart s.paragraphWordCounts).1,
    max_score := 20,
    findings := (h1Part s.h1Count).2 ++ (headingsPart s.totalHeadingCount).2
      ++ (listsPart s.listCount s.listItemCount).2
      ++ (tablesPart s.tableCount s.tablesWithThCount).2
      ++ (faqPart s.headingsTextLower).2 ++ (parasPart s.paragraphWordCounts).2 }

/-! The audit orchestrator (auditor.py). -/

/-- auditor.py `normalize_url`: prefix `https://` unless the URL already
starts with the literal `http://` or `https://` (Python
`str.startswith` on the tuple of the two prefixes). -/
def normalize_url (url : String) : String :=
  if !("http://".data.isPrefixOf url.data || "https://".data.isPrefixOf url.data)
  then "https://" ++ url
  else url

/-- Outcome of the primary GET, covering the four `except` clauses of
`audit_url`: success (with the final URL after redirects, the parsed
page, and the measured fetch time), `httpx.TimeoutException`,
`httpx.HTTPStatusError` (raised by `raise_for_status` on a non-2xx
status), `httpx.RequestError`, and any other exception. -/
inductive FetchOutcome where
  | success (finalUrl : String) (page : Soup) (fetchTimeMs : Nat)
  | timeout
  | statusError (code : Nat)
  | requestError (msg : String)
  | otherError (msg : String)

/-- The network environment of one audit: the primary fetch outcome and
the four auxiliary fetches (`none` models `httpx.RequestError`). -/
structure FetchEnv where
  primary : FetchOutcome
  llmsTxt : Option HttpResponse := none
  llmsFull : Option HttpResponse := none
  robots : Option HttpResponse := none
  sitemap : Option HttpResponse := none

/-- auditor.py `audit_url`: normalize the URL; on primary fetch success
run the five evaluators in fixed order; on failure classify the error
and return with the checks list still empty (the timeout is a Python
float rendered into the message; exact rationals model it). -/
def audit_url (url : String) (timeout : ℚ) (env : FetchEnv) : AuditResult :=
  let url := normalize_url url
  match env.primary with
  | FetchOutcome.success finalUrl page ms =>
    { url := url, final_url := finalUrl, fetch_time_ms := ms,
      checks := [
        check_llms_txt env.llmsTxt env.llmsFull,
        check_structured_data (extract_json_ld page.jsonLdScripts),
        check_meta_tags page,
        check_content_structure page,
        check_technical (urlScheme finalUrl) env.robots env.sitemap
          page.hasViewport page.htmlLang] }
  | FetchOutcome.timeout =>
    { url := url, final_url := url, checks := [],
      error := some ("Timeout after " ++ toString timeout ++ "s") }
  | FetchOutcome.statusError code =>
    { url := url, final_url := url, checks := [],
      error := some ("HTTP " ++ toString code) }
  | FetchOutcome.requestError msg =>
    { url := url, final_url := url, checks := [],
      error := some ("Request failed: " ++ msg) }
  | FetchOutcome.otherError msg =>
    { url := url, final_url := url, checks := [],
      error := some ("Error: " ++ msg) }

/-! Concrete values used by the claim theorems below. -/

/-- An audit with one check scoring 2 of 3: the exact ratio is 66.66...%,
where truncation and rounding differ. -/
def exScore23 : AuditResult :=
  { url := "u", final_url := "u",
    checks := [{ name := "c", score := 2, max_score := 3 }] }

/-- An audit with one check scoring 29 of 100 — `Σmax_score = 100` is the
real rubric's total (25+25+20+20+10), and 29/100 is the classic case
where the float product `0.29 * 100` falls just below 29. -/
def exScore29of100 : AuditResult :=
  { url := "u", final_url := "u",
    checks := [{ name := "c", score := 29, max_score := 100 }] }

/-! C1 -/

/-- C1, counterexample: the claim says `total_score` equals
`round(100 * Σscore / Σmax_score)`.  For a single check scoring 2 of 3
the code computes `int((2/3) * 100) = 66` (truncation), while rounding
gives 67. -/
theorem total_score_rounding_counterexample :
    exScore23.total_score = 66 ∧
    round ((100 * (sumScores exScore23 : ℚ)) / (sumMax exScore23 : ℚ)) = 67 ∧
    (66 : Nat) ≠ 67 := by
  refine ⟨by decide, ?_, by decide⟩
  have h1 : sumScores exScore23 = 2 := by decide
  have h2 : sumMax exScore23 = 3 := by decide
  rw [h1, h2]
  norm_num [round_eq]

/-! Facts about the binary64 model used by `total_score`. -/

theorem log2Go_spec : ∀ (fuel n : Nat), 1 ≤ n → n ≤ fuel →
    2 ^ log2Go fuel n ≤ n ∧ n < 2 ^ (log2Go fuel n + 1) := by
  intro fuel
  induction fuel with
  | zero => intro n h1 h2; exact absurd h2 (by omega)
  | succ f ih =>
    intro n h1 h2
    rw [log2Go]
    by_cases hn : n < 2
    · rw [if_pos hn]
      refine ⟨by simpa using h1, by simpa using hn⟩
    · rw [if_neg hn]
      obtain ⟨ha, hb⟩ := ih (n / 2) (by omega) (by omega)
      have hb' : n / 2 < 2 * 2 ^ log2Go f (n / 2) := by
        calc n / 2 < 2 ^ (log2Go f (n / 2) + 1) := hb
          _ = 2 * 2 ^ log2Go f (n / 2) := by rw [pow_succ]; ring
      refine ⟨?_, ?_⟩
      · calc (2:ℕ) ^ (log2Go f (n / 2) + 1) = 2 * 2 ^ log2Go f (n / 2) := by
              rw [pow_succ]; ring
          _ ≤ n := by omega
      · calc n < 4 * 2 ^ log2Go f (n / 2) := by omega
          _ = 2 ^ (log2Go f (n / 2) + 1 + 1) := by rw [pow_succ, pow_succ]; ring

theorem natLog2_spec (n : Nat) (h : 1 ≤ n) :
    2 ^ natLog2 n ≤ n ∧ n < 2 ^ (natLog2 n + 1) :=
  log2Go_spec n n h le_rfl

theorem two_zpow_toNat (e : Int) (he : 0 ≤ e) :
    (2:ℚ) ^ e = ((2 ^ e.toNat : ℕ) : ℚ) := by
  rw [Nat.cast_pow, Nat.cast_ofNat, ← zpow_natCast (2:ℚ) e.toNat,
    Int.toNat_of_nonneg he]

theorem two_zpow_neg_toNat (e : Int) (he : e < 0) :
    (2:ℚ) ^ e = (((2 ^ (-e).toNat : ℕ) : ℚ))⁻¹ := by
  rw [Nat.cast_pow, Nat.cast_ofNat, ← zpow_natCast (2:ℚ) (-e).toNat,
    Int.toNat_of_nonneg (by omega : (0:ℤ) ≤ -e), ← zpow_neg, neg_neg]

theorem two_zpow_pos (e : Int) : (0:ℚ) < (2:ℚ) ^ e := by positivity

theorem two_zpow_natCast (n : Nat) : (2:ℚ) ^ (n : ℤ) = ((2 ^ n : ℕ) : ℚ) := by
  rw [zpow_natCast]
  push_cast
  ring

theorem two_zpow_half (e : Int) : (2:ℚ) ^ e / 2 = (2:ℚ) ^ (e - 1) := by
  rw [zpow_sub₀ two_ne_zero, zpow_one]

theorem le2pow_iff (e : Int) (t m : Nat) (hm : 1 ≤ m) :
    le2pow e t m = true ↔ (2:ℚ) ^ e ≤ (t : ℚ) / m := by
  have hm0 : (0:ℚ) < m := by exact_mod_cast hm
  rw [le2pow]
  by_cases he : 0 ≤ e
  · rw [if_pos he, decide_eq_true_eq, two_zpow_toNat e he, le_div_iff₀ hm0]
    have hcomm : ((2 ^ e.toNat : ℕ):ℚ) * (m:ℚ) = ((m * 2 ^ e.toNat : ℕ) : ℚ) := by
      push_cast
      ring
    rw [hcomm, Nat.cast_le]
  · rw [if_neg he, decide_eq_true_eq, two_zpow_neg_toNat e (by omega)]
    have hj0 : (0:ℚ) < ((2 ^ (-e).toNat : ℕ):ℚ) := by positivity
    rw [inv_eq_one_div, div_le_div_iff₀ hj0 hm0, one_mul]
    have hcomm : (t:ℚ) * ((2 ^ (-e).toNat : ℕ):ℚ) = ((t * 2 ^ (-e).toNat : ℕ):ℚ) := by
      push_cast
      ring
    rw [hcomm, Nat.cast_le]

theorem floorLog2_spec (t m : Nat) (ht : 1 ≤ t) (hm : 1 ≤ m) :
    (2:ℚ) ^ floorLog2 t m ≤ (t:ℚ) / m ∧ (t:ℚ) / m < (2:ℚ) ^ (floorLog2 t m + 1) := by
  have hm0 : (0:ℚ) < m := by exact_mod_cast hm
  obtain ⟨hta, htb⟩ := natLog2_spec t ht
  obtain ⟨hma, hmb⟩ := natLog2_spec m hm
  simp only [floorLog2]
  set a := natLog2 t with ha_def
  set b := natLog2 m with hb_def
  have hub : (t:ℚ) / m < (2:ℚ) ^ ((a:ℤ) - b + 1) := by
    rw [div_lt_iff₀ hm0]
    have e1 : (t:ℚ) < (2:ℚ) ^ ((a:ℤ) + 1) := by
      rw [show ((a:ℤ) + 1) = ((a + 1 : ℕ) : ℤ) by push_cast; ring, two_zpow_natCast]
      exact_mod_cast htb
    have e2 : (2:ℚ) ^ ((a:ℤ) + 1) = (2:ℚ) ^ ((a:ℤ) - b + 1) * (2:ℚ) ^ (b:ℤ) := by
      rw [← zpow_add₀ two_ne_zero]
      congr 1
      ring
    have e3 : (2:ℚ) ^ (b:ℤ) ≤ m := by
      rw [two_zpow_natCast]
      exact_mod_cast hma
    calc (t:ℚ) < (2:ℚ) ^ ((a:ℤ) + 1) := e1
      _ = (2:ℚ) ^ ((a:ℤ) - b + 1) * (2:ℚ) ^ (b:ℤ) := e2
      _ ≤ (2:ℚ) ^ ((a:ℤ) - b + 1) * m :=
          mul_le_mul_of_nonneg_left e3 (le_of_lt (two_zpow_pos _))
  have hlb : (2:ℚ) ^ ((a:ℤ) - b - 1) < (t:ℚ) / m := by
    rw [lt_div_iff₀ hm0]
    have e1 : (2:ℚ) ^ (a:ℤ) ≤ t := by
      rw [two_zpow_natCast]
      exact_mod_cast hta
    have e2 : (m:ℚ) < (2:ℚ) ^ ((b:ℤ) + 1) := by
      rw [show ((b:ℤ) + 1) = ((b + 1 : ℕ) : ℤ) by push_cast; ring, two_zpow_natCast]
      exact_mod_cast hmb
    have e3 : (2:ℚ) ^ ((a:ℤ) - b - 1) * (2:ℚ) ^ ((b:ℤ) + 1) = (2:ℚ) ^ (a:ℤ) := by
      rw [← zpow_add₀ two_ne_zero]
      congr 1
      ring
    calc (2:ℚ) ^ ((a:ℤ) - b - 1) * m
        < (2:ℚ) ^ ((a:ℤ) - b - 1) * (2:ℚ) ^ ((b:ℤ) + 1) :=
          mul_lt_mul_of_pos_left e2 (two_zpow_pos _)
      _ = (2:ℚ) ^ (a:ℤ) := e3
      _ ≤ t := e1
  by_cases h1 : le2pow ((a:ℤ) - b + 1) t m = true
  · rw [if_pos h1]
    refine ⟨(le2pow_iff _ t m hm).mp h1, ?_⟩
    calc (t:ℚ) / m < (2:ℚ) ^ ((a:ℤ) - b + 1) := hub
      _ ≤ (2:ℚ) ^ ((a:ℤ) - b + 1 + 1) := zpow_le_zpow_right₀ one_le_two (by omega)
  · rw [if_neg h1]
    have h1' : (t:ℚ) / m < (2:ℚ) ^ ((a:ℤ) - b + 1) :=
      not_le.mp (fun hc => h1 ((le2pow_iff _ t m hm).mpr hc))
    by_cases h2 : le2pow ((a:ℤ) - b) t m = true
    · rw [if_pos h2]
      exact ⟨(le2pow_iff _ t m hm).mp h2, h1'⟩
    · rw [if_neg h2]
      have h2' : (t:ℚ) / m < (2:ℚ) ^ ((a:ℤ) - b) :=
        not_le.mp (fun hc => h2 ((le2pow_iff _ t m hm).mpr hc))
      refine ⟨le_of_lt hlb, ?_⟩
      rw [show (a:ℤ) - b - 1 + 1 = (a:ℤ) - b by ring]
      exact h2'

theorem rneDiv_bounds (N D : Nat) (hD : 1 ≤ D) :
    (N:ℚ) / D - 1 / 2 ≤ (rneDiv N D : ℚ) ∧ (rneDiv N D : ℚ) ≤ (N:ℚ) / D + 1 / 2 := by
  have hD0 : (0:ℚ) < D := by exact_mod_cast hD
  have hsplit : (N:ℚ) / D = ((N / D : ℕ) : ℚ) + ((N % D : ℕ) : ℚ) / D := by
    have h := Nat.div_add_mod N D
    have hq : ((D:ℚ) * ((N / D : ℕ):ℚ) + ((N % D : ℕ):ℚ)) = (N:ℚ) := by exact_mod_cast h
    field_simp
    linarith [hq]
  have hr_nonneg : (0:ℚ) ≤ ((N % D : ℕ):ℚ) / D := by positivity
  simp only [rneDiv]
  by_cases hc1 : 2 * (N % D) < D
  · rw [if_pos hc1]
    have hhalf : ((N % D : ℕ):ℚ) / D < 1 / 2 := by
      rw [div_lt_iff₀ hD0]
      have h2 : (2:ℚ) * ((N % D : ℕ):ℚ) < D := by exact_mod_cast hc1
      nlinarith
    constructor <;> linarith [hsplit]
  · rw [if_neg hc1]
    by_cases hc2 : D < 2 * (N % D)
    · rw [if_pos hc2]
      have hhalf : (1:ℚ) / 2 < ((N % D : ℕ):ℚ) / D := by
        rw [lt_div_iff₀ hD0]
        have h2 : (D:ℚ) < 2 * ((N % D : ℕ):ℚ) := by exact_mod_cast hc2
        nlinarith
      have hr_lt : ((N % D : ℕ):ℚ) / D < 1 := by
        rw [div_lt_one hD0]
        exact_mod_cast Nat.mod_lt N (by omega)
      push_cast
      constructor <;> linarith [hsplit]
    · rw [if_neg hc2]
      have heq : 2 * (N % D) = D := by omega
      have hhalf : ((N % D : ℕ):ℚ) / D = 1 / 2 := by
        have h2 : (2:ℚ) * ((N % D : ℕ):ℚ) = D := by exact_mod_cast heq
        rw [div_eq_div_iff (ne_of_gt hD0) (by norm_num : (2:ℚ) ≠ 0)]
        linarith
      by_cases hc3 : N / D % 2 = 0
      · rw [if_pos hc3]
        constructor <;> linarith [hsplit]
      · rw [if_neg hc3]
        push_cast
        constructor <;> linarith [hsplit]

theorem scale_bounds (x target c : ℚ) (hc : 0 < c) (N D : Nat) (hD : 1 ≤ D)
    (hx : x = (rneDiv N D : ℚ) * c) (htgt : (N:ℚ) / D * c = target) :
    target - c / 2 ≤ x ∧ x ≤ target + c / 2 := by
  obtain ⟨hlo, hhi⟩ := rneDiv_bounds N D hD
  constructor
  · rw [hx, ← htgt]
    calc (N:ℚ) / D * c - c / 2 = ((N:ℚ) / D - 1 / 2) * c := by ring
      _ ≤ (rneDiv N D : ℚ) * c := mul_le_mul_of_nonneg_right hlo (le_of_lt hc)
  · rw [hx, ← htgt]
    calc (rneDiv N D : ℚ) * c ≤ ((N:ℚ) / D + 1 / 2) * c :=
          mul_le_mul_of_nonneg_right hhi (le_of_lt hc)
      _ = (N:ℚ) / D * c + c / 2 := by ring

theorem floatDiv_snd (t m : Nat) :
    (floatDiv t m).2 = max (floorLog2 t m - 52) (-1074) := by
  simp only [floatDiv]
  split <;> rfl

theorem floatDiv_close (t m : Nat) (ht : 1 ≤ t) (hm : 1 ≤ m) :
    (t:ℚ) / m - (2:ℚ) ^ ((floatDiv t m).2 - 1) ≤ fval (floatDiv t m) ∧
      fval (floatDiv t m) ≤ (t:ℚ) / m + (2:ℚ) ^ ((floatDiv t m).2 - 1) := by
  have hm0 : (0:ℚ) < m := by exact_mod_cast hm
  by_cases he : 0 ≤ max (floorLog2 t m - 52) (-1074)
  · have hfd : floatDiv t m =
        (rneDiv t (m * 2 ^ (max (floorLog2 t m - 52) (-1074)).toNat),
          max (floorLog2 t m - 52) (-1074)) := by
      simp only [floatDiv]
      rw [if_pos he]
    rw [hfd]
    have hD : 1 ≤ m * 2 ^ (max (floorLog2 t m - 52) (-1074)).toNat :=
      Nat.one_le_iff_ne_zero.mpr (by positivity)
    have htgt : (t:ℚ) / ((m * 2 ^ (max (floorLog2 t m - 52) (-1074)).toNat : ℕ) : ℚ)
        * (2:ℚ) ^ (max (floorLog2 t m - 52) (-1074)) = (t:ℚ) / m := by
      rw [two_zpow_toNat _ he]
      push_cast
      have hm0' : (m:ℚ) ≠ 0 := ne_of_gt hm0
      have hK : ((2:ℚ) ^ (max (floorLog2 t m - 52) (-1074)).toNat) ≠ 0 := by positivity
      field_simp
      ring
    have := scale_bounds _ ((t:ℚ) / m) _ (two_zpow_pos _) t _ hD rfl htgt
    rw [two_zpow_half] at this
    exact this
  · have hlt : max (floorLog2 t m - 52) (-1074) < 0 := by omega
    have hfd : floatDiv t m =
        (rneDiv (t * 2 ^ (-(max (floorLog2 t m - 52) (-1074))).toNat) m,
          max (floorLog2 t m - 52) (-1074)) := by
      simp only [floatDiv]
      rw [if_neg he]
    rw [hfd]
    have htgt : ((t * 2 ^ (-(max (floorLog2 t m - 52) (-1074))).toNat : ℕ) : ℚ) / m
        * (2:ℚ) ^ (max (floorLog2 t m - 52) (-1074)) = (t:ℚ) / m := by
      rw [two_zpow_neg_toNat _ hlt]
      push_cast
      have hm0' : (m:ℚ) ≠ 0 := ne_of_gt hm0
      have hJ : ((2:ℚ) ^ (-(max (floorLog2 t m - 52) (-1074))).toNat) ≠ 0 := by positivity
      field_simp
      ring
    have := scale_bounds _ ((t:ℚ) / m) _ (two_zpow_pos _) _ m hm rfl htgt
    rw [two_zpow_half] at this
    exact this

theorem floatDiv_mant_le (t m : Nat) (ht : 1 ≤ t) (hm : 1 ≤ m) :
    (floatDiv t m).1 ≤ 2 ^ 53 := by
  have hm0 : (0:ℚ) < m := by exact_mod_cast hm
  have hq_hi : (t:ℚ) / m < (2:ℚ) ^ (floorLog2 t m + 1) := (floorLog2_spec t m ht hm).2
  have hmax : floorLog2 t m - 52 ≤ max (floorLog2 t m - 52) (-1074) := le_max_left _ _
  have key : ∀ (N D : Nat), 1 ≤ D →
      ((N:ℚ) / D = (t:ℚ) / m * (2:ℚ) ^ (-(max (floorLog2 t m - 52) (-1074)))) →
      rneDiv N D ≤ 2 ^ 53 := by
    intro N D hD hND
    have hscaled : (N:ℚ) / D < (2:ℚ) ^ (53:ℤ) := by
      rw [hND]
      calc (t:ℚ) / m * (2:ℚ) ^ (-(max (floorLog2 t m - 52) (-1074)))
          < (2:ℚ) ^ (floorLog2 t m + 1) * (2:ℚ) ^ (-(max (floorLog2 t m - 52) (-1074))) :=
            mul_lt_mul_of_pos_right hq_hi (two_zpow_pos _)
        _ ≤ (2:ℚ) ^ (floorLog2 t m + 1) * (2:ℚ) ^ (52 - floorLog2 t m) :=
            mul_le_mul_of_nonneg_left
              (zpow_le_zpow_right₀ one_le_two (by omega)) (le_of_lt (two_zpow_pos _))
        _ = (2:ℚ) ^ (53:ℤ) := by
            rw [← zpow_add₀ two_ne_zero]
            congr 1
            ring
    have hup := (rneDiv_bounds N D hD).2
    have hcast : ((rneDiv N D : ℕ) : ℚ) < ((2 ^ 53 + 1 : ℕ) : ℚ) := by
      have h53 : (2:ℚ) ^ (53:ℤ) = ((2 ^ 53 : ℕ) : ℚ) := two_zpow_natCast 53
      push_cast [h53] at hscaled hup ⊢
      linarith
    have : rneDiv N D < 2 ^ 53 + 1 := by exact_mod_cast hcast
    omega
  have hm0' : (m:ℚ) ≠ 0 := ne_of_gt hm0
  by_cases he : 0 ≤ max (floorLog2 t m - 52) (-1074)
  · have hfd : floatDiv t m =
        (rneDiv t (m * 2 ^ (max (floorLog2 t m - 52) (-1074)).toNat),
          max (floorLog2 t m - 52) (-1074)) := by
      simp only [floatDiv]
      rw [if_pos he]
    rw [hfd]
    refine key t _ (Nat.one_le_iff_ne_zero.mpr (by positivity)) ?_
    rw [zpow_neg, two_zpow_toNat _ he]
    push_cast
    have hK : ((2:ℚ) ^ (max (floorLog2 t m - 52) (-1074)).toNat) ≠ 0 := by positivity
    field_simp
  · have hlt : max (floorLog2 t m - 52) (-1074) < 0 := by omega
    have hfd : floatDiv t m =
        (rneDiv (t * 2 ^ (-(max (floorLog2 t m - 52) (-1074))).toNat) m,
          max (floorLog2 t m - 52) (-1074)) := by
      simp only [floatDiv]
      rw [if_neg he]
    rw [hfd]
    refine key _ m hm ?_
    rw [two_zpow_toNat _ (by omega : (0:ℤ) ≤ -(max (floorLog2 t m - 52) (-1074)))]
    push_cast
    field_simp

theorem floatMul100_le (d : Nat × Int) (hmant : d.1 ≤ 2 ^ 53) :
    fval (floatMul100 d) ≤ 100 * fval d + (2:ℚ) ^ (d.2 + 6) := by
  simp only [floatMul100]
  by_cases hs : natLog2 (d.1 * 100 / 2 ^ 52) = 0
  · rw [if_pos hs]
    have hexact : fval (d.1 * 100, d.2) = 100 * fval d := by
      simp only [fval]
      push_cast
      ring
    rw [hexact]
    have := two_zpow_pos (d.2 + 6)
    linarith
  · rw [if_neg hs]
    have hvlt : d.1 * 100 < 2 ^ 60 := by
      have h1 : d.1 * 100 ≤ 2 ^ 53 * 100 := Nat.mul_le_mul_right 100 hmant
      omega
    have hq1 : 1 ≤ d.1 * 100 / 2 ^ 52 := by
      by_contra hq
      push_neg at hq
      have hq0 : d.1 * 100 / 2 ^ 52 = 0 := by omega
      exact hs (by rw [hq0]; rfl)
    obtain ⟨hsa, hsb⟩ := natLog2_spec _ hq1
    have hqlt : d.1 * 100 / 2 ^ 52 < 2 ^ 8 := by omega
    have hs7 : natLog2 (d.1 * 100 / 2 ^ 52) ≤ 7 := by
      by_contra hgt
      push_neg at hgt
      have h8 : (2:ℕ) ^ 8 ≤ 2 ^ natLog2 (d.1 * 100 / 2 ^ 52) :=
        Nat.pow_le_pow_right (by norm_num) hgt
      omega
    have hD : 1 ≤ 2 ^ natLog2 (d.1 * 100 / 2 ^ 52) := Nat.one_le_two_pow
    have hup := (rneDiv_bounds (d.1 * 100) (2 ^ natLog2 (d.1 * 100 / 2 ^ 52)) hD).2
    simp only [fval]
    have hzsplit : (2:ℚ) ^ (d.2 + (natLog2 (d.1 * 100 / 2 ^ 52) : ℤ)) =
        (2:ℚ) ^ d.2 * ((2 ^ natLog2 (d.1 * 100 / 2 ^ 52) : ℕ) : ℚ) := by
      rw [zpow_add₀ two_ne_zero, two_zpow_natCast]
    have hpden : (0:ℚ) < ((2 ^ natLog2 (d.1 * 100 / 2 ^ 52) : ℕ) : ℚ) := by positivity
    calc ((rneDiv (d.1 * 100) (2 ^ natLog2 (d.1 * 100 / 2 ^ 52)) : ℕ) : ℚ)
          * (2:ℚ) ^ (d.2 + (natLog2 (d.1 * 100 / 2 ^ 52) : ℤ))
        ≤ (((d.1 * 100 : ℕ) : ℚ) / ((2 ^ natLog2 (d.1 * 100 / 2 ^ 52) : ℕ) : ℚ) + 1 / 2)
          * (2:ℚ) ^ (d.2 + (natLog2 (d.1 * 100 / 2 ^ 52) : ℤ)) :=
          mul_le_mul_of_nonneg_right hup (le_of_lt (two_zpow_pos _))
      _ = ((d.1 * 100 : ℕ) : ℚ) * (2:ℚ) ^ d.2
          + (2:ℚ) ^ (d.2 + (natLog2 (d.1 * 100 / 2 ^ 52) : ℤ)) / 2 := by
          rw [hzsplit]
          field_simp
          ring_nf
      _ ≤ 100 * ((d.1 : ℚ) * (2:ℚ) ^ d.2) + (2:ℚ) ^ (d.2 + 6) := by
          have h1 : ((d.1 * 100 : ℕ) : ℚ) * (2:ℚ) ^ d.2 = 100 * ((d.1 : ℚ) * (2:ℚ) ^ d.2) := by
            push_cast
            ring
          have h2 : (2:ℚ) ^ (d.2 + (natLog2 (d.1 * 100 / 2 ^ 52) : ℤ)) / 2
              ≤ (2:ℚ) ^ (d.2 + 6) := by
            rw [two_zpow_half]
            exact zpow_le_zpow_right₀ one_le_two (by omega)
          linarith [h1.ge, h1.le]

theorem floatToInt_le (d : Nat × Int) (C : Nat) (h : fval d < (C:ℚ) + 1) :
    floatToInt d ≤ C := by
  rw [floatToInt]
  by_cases he : 0 ≤ d.2
  · rw [if_pos he]
    have hv : fval d = ((d.1 * 2 ^ d.2.toNat : ℕ) : ℚ) := by
      rw [fval, two_zpow_toNat _ he]
      push_cast
      ring
    rw [hv] at h
    have : d.1 * 2 ^ d.2.toNat < C + 1 := by exact_mod_cast h
    omega
  · rw [if_neg he]
    have hval : fval d = (d.1 : ℚ) / ((2 ^ (-d.2).toNat : ℕ) : ℚ) := by
      rw [fval, two_zpow_neg_toNat _ (by omega), div_eq_mul_inv]
    have hle : ((d.1 / 2 ^ (-d.2).toNat : ℕ) : ℚ) ≤ fval d := by
      rw [hval]
      exact Nat.cast_div_le
    have hlt : ((d.1 / 2 ^ (-d.2).toNat : ℕ) : ℚ) < (C:ℚ) + 1 := lt_of_le_of_lt hle h
    have : d.1 / 2 ^ (-d.2).toNat < C + 1 := by exact_mod_cast hlt
    omega

theorem pyIntDivMul100_le_100 (t m : Nat) (htm : t ≤ m) (hm : 1 ≤ m) :
    pyIntDivMul100 t m ≤ 100 := by
  rw [pyIntDivMul100]
  by_cases ht0 : t = 0
  · rw [if_pos ht0]
    omega
  · rw [if_neg ht0]
    have ht : 1 ≤ t := by omega
    have hm0 : (0:ℚ) < m := by exact_mod_cast hm
    have hq1 : (t:ℚ) / m ≤ 1 := by
      rw [div_le_one hm0]
      exact_mod_cast htm
    obtain ⟨hfla, _⟩ := floorLog2_spec t m ht hm
    have hfl0 : floorLog2 t m ≤ 0 := by
      by_contra hpos
      push_neg at hpos
      have h2 : (2:ℚ) ^ (1:ℤ) ≤ (2:ℚ) ^ floorLog2 t m :=
        zpow_le_zpow_right₀ one_le_two hpos
      rw [zpow_one] at h2
      linarith
    have he52 : (floatDiv t m).2 ≤ -52 := by
      rw [floatDiv_snd]
      omega
    obtain ⟨_, hV1⟩ := floatDiv_close t m ht hm
    have hV1' : fval (floatDiv t m) ≤ 1 + (2:ℚ) ^ (-53 : ℤ) := by
      have hmono : (2:ℚ) ^ ((floatDiv t m).2 - 1) ≤ (2:ℚ) ^ (-53:ℤ) :=
        zpow_le_zpow_right₀ one_le_two (by omega)
      linarith
    have hV2 := floatMul100_le (floatDiv t m) (floatDiv_mant_le t m ht hm)
    have hpow6 : (2:ℚ) ^ ((floatDiv t m).2 + 6) ≤ (2:ℚ) ^ (-46:ℤ) :=
      zpow_le_zpow_right₀ one_le_two (by omega)
    have hnum : 100 * (2:ℚ) ^ (-53:ℤ) + (2:ℚ) ^ (-46:ℤ) < 1 := by norm_num
    have hlt : fval (floatMul100 (floatDiv t m)) < ((100:ℕ):ℚ) + 1 := by
      push_cast
      linarith
    exact floatToInt_le _ 100 hlt

/-- C1, amended: `total_score` is the Python `int()` TRUNCATION of the
double-precision (binary64) value of `(Σscore / Σmax_score) * 100`, not
the rounding: 0 for an empty checks list or a zero `Σmax_score`;
otherwise exactly `pyIntDivMul100 Σscore Σmax_score`.  Because of the
float detour it can also fall below the exact floor: a single check
scoring 2 of 3 yields 66 (floor 66, round 67), and one scoring 29 of 100
— the real rubric's `Σmax_score` — yields 28, one less than the exact
floor 29.  Whenever every check satisfies `score ≤ max_score`, the result
is at most 100. -/
theorem total_score_spec (r : AuditResult) :
    (r.checks = [] → r.total_score = 0) ∧
    (sumMax r = 0 → r.total_score = 0) ∧
    (r.checks ≠ [] → 0 < sumMax r →
      r.total_score = pyIntDivMul100 (sumScores r) (sumMax r)) ∧
    exScore23.total_score = 66 ∧
    exScore29of100.total_score = 28 ∧
    ((∀ c ∈ r.checks, c.score ≤ c.max_score) → r.total_score ≤ 100) := by
  refine ⟨?_, ?_, ?_, by decide, by decide, ?_⟩
  · intro h
    simp [AuditResult.total_score, h]
  · intro h
    cases hc : r.checks with
    | nil => simp [AuditResult.total_score, hc]
    | cons c t =>
      rw [AuditResult.total_score, hc, h]
      simp
  · intro hne hpos
    cases hc : r.checks with
    | nil => exact absurd hc hne
    | cons c t => simp [AuditResult.total_score, hc, hpos]
  · intro hle
    have hsum : sumScores r ≤ sumMax r := by
      unfold sumScores sumMax
      exact List.sum_le_sum (fun c hc => hle c hc)
    cases hc : r.checks with
    | nil => simp [AuditResult.total_score, hc]
    | cons c t =>
      have hts : r.total_score =
          if 0 < sumMax r then pyIntDivMul100 (sumScores r) (sumMax r) else 0 := by
        simp [AuditResult.total_score, hc]
      rw [hts]
      by_cases hpos : 0 < sumMax r
      · rw [if_pos hpos]
        exact pyIntDivMul100_le_100 _ _ hsum hpos
      · rw [if_neg hpos]
        omega

/-- C1, witness: the amended theorem applied to the concrete 2-of-3
audit, discharging the non-emptiness, positivity and score-bound
hypotheses there. -/
theorem total_score_spec_witness :
    (exScore23.checks ≠ [] ∧ 0 < sumMax exScore23 ∧
      exScore23.total_score = pyIntDivMul100 (sumScores exScore23) (sumMax exScore23)) ∧
    ((∀ c ∈ exScore23.checks, c.score ≤ c.max_score) ∧ exScore23.total_score ≤ 100) :=
  ⟨⟨by decide, by decide,
    (total_score_spec exScore23).2.2.1 (by decide) (by decide)⟩,
   ⟨by decide, (total_score_spec exScore23).2.2.2.2.2 (by decide)⟩⟩

/-! C10 -/

/-- C10: `normalize_url` returns inputs already starting with `http://`
or `https://` unchanged and prefixes `https://` to every other input —
including inputs with some other scheme, such as `ftp://example.com`,
which becomes `https://ftp://example.com`. -/
theorem normalize_url_spec :
    (∀ url : String,
      ("http://".data.isPrefixOf url.data || "https://".data.isPrefixOf url.data) = true →
        normalize_url url = url) ∧
    (∀ url : String,
      ("http://".data.isPrefixOf url.data || "https://".data.isPrefixOf url.data) = false →
        normalize_url url = "https://" ++ url) ∧
    normalize_url "ftp://example.com" = "https://ftp://example.com" ∧
    normalize_url "http://example.com" = "http://example.com" ∧
    normalize_url "https://example.com" = "https://example.com" := by
  refine ⟨?_, ?_, by decide, by decide, by decide⟩
  · intro url h
    simp [normalize_url, h]
  · intro url h
    simp [normalize_url, h]

/-- C10, witness: both branches of the theorem at concrete inputs. -/
theorem normalize_url_spec_witness :
    normalize_url "example.com" = "https://" ++ "example.com" ∧
    normalize_url "http://x" = "http://x" :=
  ⟨normalize_url_spec.2.1 "example.com" (by decide),
   normalize_url_spec.1 "http://x" (by decide)⟩

/-! C4 -/

/-- C4: when the primary GET fails, `audit_url` returns an `AuditResult`
whose `error` is the classified message — `"Timeout after {t}s"`,
`"HTTP {code}"`, `"Request failed: {detail}"`, or the generic
`"Error: {detail}"` — and whose checks list is empty: no evaluator runs. -/
theorem audit_url_failure_spec (url : String) (timeout : ℚ) (env : FetchEnv) :
    (env.primary = FetchOutcome.timeout →
      audit_url url timeout env =
        { url := normalize_url url, final_url := normalize_url url, checks := [],
          error := some ("Timeout after " ++ toString timeout ++ "s") }) ∧
    (∀ code, env.primary = FetchOutcome.statusError code →
      audit_url url timeout env =
        { url := normalize_url url, final_url := normalize_url url, checks := [],
          error := some ("HTTP " ++ toString code) }) ∧
    (∀ msg, env.primary = FetchOutcome.requestError msg →
      audit_url url timeout env =
        { url := normalize_url url, final_url := normalize_url url, checks := [],
          error := some ("Request failed: " ++ msg) }) ∧
    (∀ msg, env.primary = FetchOutcome.otherError msg →
      audit_url url timeout env =
        { url := normalize_url url, final_url := normalize_url url, checks := [],
          error := some ("Error: " ++ msg) }) := by
  refine ⟨?_, ?_, ?_, ?_⟩
  · intro h
    simp [audit_url, h]
  · intro code h
    simp [audit_url, h]
  · intro msg h
    simp [audit_url, h]
  · intro msg h
    simp [audit_url, h]

/-- C4, witness: a timed-out and a 503-status audit of a concrete URL. -/
theorem audit_url_failure_witness :
    audit_url "example.com" 30 { primary := FetchOutcome.timeout } =
      { url := normalize_url "example.com", final_url := normalize_url "example.com",
        checks := [], error := some ("Timeout after " ++ toString (30 : ℚ) ++ "s") } ∧
    audit_url "example.com" 30 { primary := FetchOutcome.statusError 503 } =
      { url := normalize_url "example.com", final_url := normalize_url "example.com",
        checks := [], error := some ("HTTP " ++ toString 503) } :=
  ⟨(audit_url_failure_spec "example.com" 30 { primary := FetchOutcome.timeout }).1 rfl,
   (audit_url_failure_spec "example.com" 30
     { primary := FetchOutcome.statusError 503 }).2.1 503 rfl⟩

/-! C2 -/

theorem eligible_iff (f : Finding) :
    eligibleFinding f = true ↔
      (f.severity = Severity.warning ∨ f.severity = Severity.error) ∧
      f.fix_hint ≠ none ∧ f.fix_hint ≠ some "" := by
  cases hfh : f.fix_hint with
  | none => simp [eligibleFinding, truthyStr, hfh]
  | some s =>
    cases hs : f.severity <;>
      simp [eligibleFinding, truthyStr, hfh, hs, bne_iff_ne]

/-- A WARNING finding whose `fix_hint` is the empty string: non-null,
but falsy for Python. -/
def emptyHintWarn : Finding :=
  { check := "c", message := "m", severity := Severity.warning,
    fix_hint := some "", impact := 5 }

/-- An audit whose only finding is `emptyHintWarn`. -/
def exEmptyHint : AuditResult :=
  { url := "u", final_url := "u",
    checks := [{ name := "c", score := 0, max_score := 1,
                 findings := [emptyHintWarn] }] }

/-- C2, counterexample: the claim says `quick_wins` contains exactly the
WARNING/ERROR findings with a NON-NULL `fix_hint`.  A WARNING finding
with `fix_hint = ""` has a non-null hint, so the claim puts it in
`quick_wins`; the code tests Python truthiness (`and finding.fix_hint`)
and drops it. -/
theorem quick_wins_empty_hint_counterexample :
    exEmptyHint.quick_wins = [] ∧
    ((allFindings exEmptyHint).filter
      (fun f => (f.severity == Severity.warning || f.severity == Severity.error)
        && f.fix_hint.isSome)).length = 1 := by
  decide

/-- C2, amended: `quick_wins` is the 5-truncation of the stable
descending-impact sort of the findings (in check order, then finding
order) whose severity is WARNING or ERROR and whose `fix_hint` is
non-null AND non-empty; every member satisfies that filter, the length is
at most 5, the sort is a permutation of the filtered sequence, the result
is sorted by descending impact, and ties keep insertion order (filtering
by any fixed impact value leaves the filtered sequence unchanged). -/
theorem quick_wins_spec (r : AuditResult) :
    (∀ f ∈ r.quick_wins,
      (f.severity = Severity.warning ∨ f.severity = Severity.error) ∧
      f.fix_hint ≠ none ∧ f.fix_hint ≠ some "") ∧
    r.quick_wins.length ≤ 5 ∧
    r.quick_wins = (sortDesc ((allFindings r).filter eligibleFinding)).take 5 ∧
    (sortDesc ((allFindings r).filter eligibleFinding)).Perm
      ((allFindings r).filter eligibleFinding) ∧
    r.quick_wins.Pairwise (fun a b => b.impact ≤ a.impact) ∧
    (∀ v : Nat,
      (sortDesc ((allFindings r).filter eligibleFinding)).filter
          (fun f => f.impact == v)
        = ((allFindings r).filter eligibleFinding).filter
          (fun f => f.impact == v)) := by
  refine ⟨?_, ?_, rfl, sortDesc_perm _, ?_, fun v => sortDesc_filter_stable _ v⟩
  · intro f hf
    have hmem : f ∈ sortDesc ((allFindings r).filter eligibleFinding) :=
      (List.take_sublist 5 _).mem hf
    have hmem2 : f ∈ (allFindings r).filter eligibleFinding :=
      (sortDesc_perm _).mem_iff.mp hmem
    exact (eligible_iff f).mp (List.of_mem_filter hmem2)
  · exact List.length_take_le 5 (sortDesc ((allFindings r).filter eligibleFinding))
  · exact List.Pairwise.sublist (List.take_sublist 5 _) (sortDesc_pairwise _)

/-- A high-impact ERROR finding with a usable fix hint. -/
def fixableErr : Finding :=
  { check := "c", message := "m", severity := Severity.error,
    fix_hint := some "fix it", impact := 9 }

/-- An audit whose only finding is `fixableErr`. -/
def exFixable : AuditResult :=
  { url := "u", final_url := "u",
    checks := [{ name := "c", score := 0, max_score := 1,
                 findings := [fixableErr] }] }

/-- C2, witness: the amended theorem applied to a concrete audit with one
eligible finding. -/
theorem quick_wins_spec_witness :
    fixableErr ∈ exFixable.quick_wins ∧
    ((fixableErr.severity = Severity.warning ∨ fixableErr.severity = Severity.error) ∧
      fixableErr.fix_hint ≠ none ∧ fixableErr.fix_hint ≠ some "") ∧
    exFixable.quick_wins.length ≤ 5 :=
  ⟨by decide, (quick_wins_spec exFixable).1 fixableErr (by decide),
   (quick_wins_spec exFixable).2.1⟩

/-! C3 -/

theorem length_filter_lt_iff {α : Type} (p : α → Bool) (l : List α) :
    (l.filter p).length < l.length ↔ ∃ x ∈ l, p x = false := by
  induction l with
  | nil => simp
  | cons a t ih =>
    cases ha : p a with
    | true =>
      simp only [List.filter_cons_of_pos ha, List.length_cons,
        Nat.succ_lt_succ_iff, ih, List.mem_cons]
      constructor
      · rintro ⟨x, hx, hpx⟩
        exact ⟨x, Or.inr hx, hpx⟩
      · rintro ⟨x, hx | hx, hpx⟩
        · rw [hx] at hpx
          rw [ha] at hpx
          cases hpx
        · exact ⟨x, hx, hpx⟩
    | false =>
      have hne : ¬ p a = true := by simp [ha]
      simp only [List.filter_cons_of_neg hne, List.length_cons, List.mem_cons]
      constructor
      · intro _
        exact ⟨a, Or.inl rfl, ha⟩
      · intro _
        exact Nat.lt_succ_of_le (List.length_filter_le p t)

/-- The error condition of one response is Python truthiness of its
`error` field, so a response is counted valid exactly when its error is
null or the empty string. -/
theorem error_count_lt_iff (r : LLMResult) :
    r.error_count < r.responses.length ↔
      ∃ x ∈ r.responses, x.error = none ∨ x.error = some "" := by
  rw [LLMResult.error_count, length_filter_lt_iff]
  constructor
  · rintro ⟨x, hx, he⟩
    refine ⟨x, hx, ?_⟩
    cases hxe : x.error with
    | none => exact Or.inl rfl
    | some s =>
      right
      rw [hxe] at he
      simp only [truthyStr, bne_eq_false_iff_eq] at he
      rw [he]
  · rintro ⟨x, hx, he | he⟩ <;> exact ⟨x, hx, by simp [truthyStr, he]⟩

/-- The providers `overall_visibility` includes: those whose
`error_count` is strictly below their response count. -/
def includedResults (t : TestResult) : List LLMResult :=
  t.llm_results.filter (fun r => decide (r.error_count < r.responses.length))

theorem weightOf_pos (p : String) : 0 < weightOf p := by
  unfold weightOf
  split_ifs <;> norm_num

theorem visStep_foldl (l : List LLMResult) (a : Nat) (b : ℚ) :
    l.foldl visStep (a, b) =
      (a + ((l.filter (fun r => decide (r.error_count < r.responses.length))).map
          (fun r => weightOf r.provider)).sum,
       b + ((l.filter (fun r => decide (r.error_count < r.responses.length))).map
          (fun r => r.mention_rate * (weightOf r.provider : ℚ))).sum) := by
  induction l generalizing a b with
  | nil => simp
  | cons r t ih =>
    by_cases h : r.error_count < r.responses.length
    · rw [List.foldl_cons, visStep, if_pos h, ih,
        List.filter_cons_of_pos (by simpa using h)]
      simp [add_assoc]
    · rw [List.foldl_cons, visStep, if_neg h, ih,
        List.filter_cons_of_neg (by simpa using h)]

theorem weight_sum_eq_zero_iff (l : List LLMResult) :
    ((l.map (fun r => weightOf r.provider)).sum = 0) ↔ l = [] := by
  cases l with
  | nil => simp
  | cons r t =>
    simp only [List.map_cons, List.sum_cons, List.cons_ne_nil, iff_false]
    have := weightOf_pos r.provider
    omega

/-- A response record used by the concrete visibility examples. -/
def mkResp (p : String) (mb : Bool) (e : Option String) : LLMResponse :=
  { provider := p, model := "m", prompt := "q", response := "",
    mentions_brand := mb, mention_context := none, latency_ms := 0, error := e }

/-- OpenAI result whose single response errored ("boom") while claiming a
mention: `mention_rate` 100 but all responses errored. -/
def oaiAllErrored : LLMResult :=
  { provider := "OpenAI", model := "m",
    responses := [mkResp "OpenAI" true (some "boom")] }

/-- Clean Google result with 1 of 2 responses mentioning the brand:
`mention_rate` 50. -/
def googleClean : LLMResult :=
  { provider := "Google", model := "m",
    responses := [mkResp "Google" true none, mkResp "Google" false none] }

/-- The claim's concrete scenario: all-errored OpenAI plus clean Google. -/
def exVisibility : TestResult :=
  { brand := "B", llm_results := [oaiAllErrored, googleClean] }

/-- OpenAI result whose single response has `error = ""`: the error field
is non-null, yet Python truthiness treats the response as valid. -/
def oaiEmptyStringError : LLMResult :=
  { provider := "OpenAI", model := "m",
    responses := [mkResp "OpenAI" true (some "")] }

/-- A test result containing only `oaiEmptyStringError`. -/
def exEmptyStringError : TestResult :=
  { brand := "B", llm_results := [oaiEmptyStringError] }

/-- C3, counterexample: the claim includes exactly the providers with at
least one NON-ERRORED response.  `oaiEmptyStringError`'s only response
has its error field set (to `""`), so under the claim no provider is
included and the result is 0.0 — but the code tests truthiness of the
error string, keeps the provider, and returns its full rate 100. -/
theorem overall_visibility_empty_string_error_counterexample :
    exEmptyStringError.overall_visibility = 100 ∧
    (exEmptyStringError.llm_results.all
      (fun r => r.responses.all (fun x => x.error.isSome))) = true ∧
    (100 : ℚ) ≠ 0 := by
  refine ⟨?_, by decide, by norm_num⟩
  have hrate : oaiEmptyStringError.mention_rate = 100 := by
    rw [LLMResult.mention_rate]
    simp only [oaiEmptyStringError, mkResp]
    norm_num
  have hcount : oaiEmptyStringError.error_count = 0 := by decide
  have hlen : oaiEmptyStringError.responses.length = 1 := by decide
  have hstep : visStep (0, 0) oaiEmptyStringError = (3, 300) := by
    rw [visStep, if_pos (by rw [hcount, hlen]; norm_num)]
    rw [hrate]
    have hw : weightOf oaiEmptyStringError.provider = 3 := by decide
    rw [hw]
    norm_num
  rw [TestResult.overall_visibility]
  rw [show exEmptyStringError.llm_results = [oaiEmptyStringError] from rfl]
  rw [List.foldl_cons, hstep, List.foldl_nil]
  norm_num

/-- C3, amended: `overall_visibility` is the weighted average of
`mention_rate` over exactly those results whose responses are not all
errored, where "errored" is Python truthiness of the error string (a
null or EMPTY error string counts as a valid response); the weights are
OpenAI 3, Google 2, Perplexity 2, Anthropic 1, default 1, and the result
is 0 when no provider qualifies.  In particular the all-errored-OpenAI /
clean-Google-at-50 scenario yields exactly 50. -/
theorem overall_visibility_spec :
    (∀ t : TestResult,
      (includedResults t = [] → t.overall_visibility = 0) ∧
      (includedResults t ≠ [] →
        t.overall_visibility =
          ((includedResults t).map
            (fun r => r.mention_rate * (weightOf r.provider : ℚ))).sum
          / (((includedResults t).map (fun r => weightOf r.provider)).sum : ℚ)) ∧
      (∀ r, r ∈ includedResults t ↔
        r ∈ t.llm_results ∧
          ∃ x ∈ r.responses, x.error = none ∨ x.error = some "")) ∧
    weightOf "OpenAI" = 3 ∧ weightOf "Google" = 2 ∧ weightOf "Perplexity" = 2 ∧
    weightOf "Anthropic" = 1 ∧
    (∀ p : String, p ∉ (["OpenAI", "Google", "Anthropic", "Perplexity"] : List String) →
      weightOf p = 1) ∧
    exVisibility.overall_visibility = 50 := by
  refine ⟨?_, by decide, by decide, by decide, by decide, ?_, ?_⟩
  · intro t
    refine ⟨?_, ?_, ?_⟩
    · intro hinc
      cases hl : t.llm_results with
      | nil => rw [TestResult.overall_visibility, hl]
      | cons r l =>
        rw [TestResult.overall_visibility, hl]
        have hfold := visStep_foldl (r :: l) 0 0
        rw [← hl] at hfold
        rw [hl] at hfold
        rw [hfold]
        have : ((r :: l).filter
            (fun x => decide (x.error_count < x.responses.length))) = [] := by
          have := hinc
          rw [includedResults, hl] at this
          exact this
        rw [this]
        simp
    · intro hinc
      cases hl : t.llm_results with
      | nil =>
        exact absurd (by rw [includedResults, hl]; rfl) hinc
      | cons r l =>
        rw [TestResult.overall_visibility, hl]
        have hfold := visStep_foldl (r :: l) 0 0
        rw [hfold]
        have hne : ((r :: l).filter
            (fun x => decide (x.error_count < x.responses.length))) ≠ [] := by
          rw [includedResults, hl] at hinc
          exact hinc
        have hw : (((r :: l).filter
            (fun x => decide (x.error_count < x.responses.length))).map
            (fun x => weightOf x.provider)).sum ≠ 0 := by
          intro h0
          exact hne ((weight_sum_eq_zero_iff _).mp h0)
        rw [includedResults, hl]
        simp [hw]
    · intro r
      rw [includedResults, List.mem_filter]
      simp only [decide_eq_true_eq]
      rw [error_count_lt_iff]
  · intro p hp
    simp only [List.mem_cons, List.not_mem_nil, or_false, not_or] at hp
    obtain ⟨h1, h2, h3, h4⟩ := hp
    rw [weightOf, if_neg h1, if_neg h2, if_neg h4]
    exact if_neg h3
  · have hcount1 : oaiAllErrored.error_count = 1 := by decide
    have hlen1 : oaiAllErrored.responses.length = 1 := by decide
    have hstep1 : visStep (0, 0) oaiAllErrored = (0, 0) := by
      rw [visStep, if_neg (by rw [hcount1, hlen1]; omega)]
    have hrate2 : googleClean.mention_rate = 50 := by
      rw [LLMResult.mention_rate]
      simp only [googleClean, mkResp]
      norm_num [List.filter]
    have hcount2 : googleClean.error_count = 0 := by decide
    have hlen2 : googleClean.responses.length = 2 := by decide
    have hstep2 : visStep (0, 0) googleClean = (2, 100) := by
      rw [visStep, if_pos (by rw [hcount2, hlen2]; norm_num)]
      rw [hrate2]
      have hw : weightOf googleClean.provider = 2 := by decide
      rw [hw]
      norm_num
    rw [TestResult.overall_visibility]
    rw [show exVisibility.llm_results = [oaiAllErrored, googleClean] from rfl]
    rw [List.foldl_cons, hstep1, List.foldl_cons, hstep2, List.foldl_nil]
    norm_num

/-- C3, witness: the amended theorem's characterization applied to the
concrete scenario, discharging the non-emptiness hypothesis. -/
theorem overall_visibility_spec_witness :
    includedResults exVisibility ≠ [] ∧
    exVisibility.overall_visibility =
      ((includedResults exVisibility).map
        (fun r => r.mention_rate * (weightOf r.provider : ℚ))).sum
      / (((includedResults exVisibility).map (fun r => weightOf r.provider)).sum : ℚ) :=
  ⟨by decide, ((overall_visibility_spec.1 exVisibility).2.1) (by decide)⟩

/-! C5 -/

theorem pyFind_some_occurs (pat : List Char) (hay : List Char) (i : Nat)
    (h : pyFind pat hay = some i) : pat.isPrefixOf (hay.drop i) = true := by
  induction hay generalizing i with
  | nil =>
    by_cases hp : pat.isPrefixOf ([] : List Char) = true
    · rw [pyFind, if_pos hp] at h
      cases h
      simpa using hp
    · rw [pyFind, if_neg hp] at h
      cases h
  | cons c t ih =>
    by_cases hp : pat.isPrefixOf (c :: t) = true
    · rw [pyFind, if_pos hp] at h
      cases h
      simpa using hp
    · rw [pyFind, if_neg hp] at h
      cases hf : pyFind pat t with
      | none => rw [hf] at h; cases h
      | some j =>
        rw [hf] at h
        have hji : j + 1 = i := by simpa using h
        subst hji
        simpa using ih j hf

theorem pyFind_some_min (pat : List Char) (hay : List Char) (i : Nat)
    (h : pyFind pat hay = some i) :
    ∀ j < i, pat.isPrefixOf (hay.drop j) = false := by
  induction hay generalizing i with
  | nil =>
    by_cases hp : pat.isPrefixOf ([] : List Char) = true
    · rw [pyFind, if_pos hp] at h
      cases h
      intro j hj
      omega
    · rw [pyFind, if_neg hp] at h
      cases h
  | cons c t ih =>
    by_cases hp : pat.isPrefixOf (c :: t) = true
    · rw [pyFind, if_pos hp] at h
      cases h
      intro j hj
      omega
    · rw [pyFind, if_neg hp] at h
      cases hf : pyFind pat t with
      | none => rw [hf] at h; cases h
      | some k =>
        rw [hf] at h
        have hki : k + 1 = i := by simpa using h
        subst hki
        intro j hj
        cases j with
        | zero =>
          rw [List.drop_zero]
          exact Bool.eq_false_iff.mpr hp
        | succ j' => simpa using ih k hf j' (by omega)

theorem pyFind_none_spec (pat : List Char) (hay : List Char)
    (h : pyFind pat hay = none) :
    ∀ j, pat.isPrefixOf (hay.drop j) = false := by
  induction hay with
  | nil =>
    by_cases hp : pat.isPrefixOf ([] : List Char) = true
    · rw [pyFind, if_pos hp] at h
      cases h
    · intro j
      rw [List.drop_nil]
      exact Bool.eq_false_iff.mpr hp
  | cons c t ih =>
    by_cases hp : pat.isPrefixOf (c :: t) = true
    · rw [pyFind, if_pos hp] at h
      cases h
    · rw [pyFind, if_neg hp] at h
      cases hf : pyFind pat t with
      | some j =>
        rw [hf] at h
        simp at h
      | none =>
        intro j
        cases j with
        | zero =>
          rw [List.drop_zero]
          exact Bool.eq_false_iff.mpr hp
        | succ j' => simpa using ih hf j'

theorem pyFind_isSome_iff (pat : List Char) (hay : List Char) :
    (pyFind pat hay).isSome = true ↔
      ∃ i, pat.isPrefixOf (hay.drop i) = true := by
  constructor
  · intro h
    cases hf : pyFind pat hay with
    | none => rw [hf] at h; cases h
    | some i => exact ⟨i, pyFind_some_occurs pat hay i hf⟩
  · rintro ⟨i, hi⟩
    cases hf : pyFind pat hay with
    | some j => rfl
    | none =>
      have := pyFind_none_spec pat hay hf i
      rw [hi] at this
      cases this

theorem mentionLoop_false_no_context (text textLower : List Char)
    (vs : List (List Char)) (h : (mentionLoop text textLower vs).1 = false) :
    (mentionLoop text textLower vs).2 = none := by
  induction vs with
  | nil => rfl
  | cons v rest ih =>
    cases hf : pyFind v textLower with
    | some i =>
      rw [mentionLoop, hf] at h
      exact Bool.noConfusion h
    | none =>
      rw [mentionLoop, hf] at h
      rw [mentionLoop, hf]
      exact ih h

theorem mentionLoop_true_iff (text textLower : List Char)
    (vs : List (List Char)) :
    (mentionLoop text textLower vs).1 = true ↔
      ∃ v ∈ vs, (pyFind v textLower).isSome = true := by
  induction vs with
  | nil => simp [mentionLoop]
  | cons v rest ih =>
    cases hf : pyFind v textLower with
    | some i =>
      rw [mentionLoop, hf]
      simp only [List.mem_cons]
      constructor
      · intro _
        exact ⟨v, Or.inl rfl, by rw [hf]; rfl⟩
      · intro _
        trivial
    | none =>
      rw [mentionLoop, hf]
      constructor
      · intro h
        obtain ⟨w, hw, hws⟩ := ih.mp h
        exact ⟨w, List.mem_cons_of_mem v hw, hws⟩
      · rintro ⟨w, hw, hws⟩
        rcases List.mem_cons.mp hw with rfl | hw
        · rw [hf] at hws
          exact Bool.noConfusion hws
        · exact ih.mpr ⟨w, hw, hws⟩

theorem mentionLoop_true_context (text textLower : List Char)
    (vs : List (List Char)) (h : (mentionLoop text textLower vs).1 = true) :
    ∃ v i, v ∈ vs ∧ pyFind v textLower = some i ∧
      (mentionLoop text textLower vs).2 = some (mkContext text i v.length) := by
  induction vs with
  | nil => cases h
  | cons v rest ih =>
    cases hf : pyFind v textLower with
    | some i =>
      refine ⟨v, i, List.mem_cons_self v rest, hf, ?_⟩
      rw [mentionLoop, hf]
    | none =>
      rw [mentionLoop, hf] at h
      obtain ⟨w, i, hw, hwf, hctx⟩ := ih h
      refine ⟨w, i, List.mem_cons_of_mem v hw, hwf, ?_⟩
      rw [mentionLoop, hf]
      exact hctx

/-- C5, amended: `check_mention` searches the lower-cased text for the
brand and its two normalized variants, in order; it reports a match iff
some variant occurs as a substring; on the first match (earliest variant
in the list, at that variant's leftmost occurrence) the context window is
the slice from 50 characters before the match start to 100 characters
after the END of the matched variant (`idx + len(variant) + 100`), with
`"..."` prefixed exactly when cut on the left and suffixed exactly when
cut on the right; with no match the result is `(false, none)`. -/
theorem check_mention_spec :
    (∀ text brand : String,
      ((check_mention text brand).1 = true ↔
        ∃ v ∈ variationsOf brand, ∃ i,
          v.isPrefixOf ((lowerChars text.data).drop i) = true)) ∧
    (∀ text brand : String, (check_mention text brand).1 = false →
      (check_mention text brand).2 = none) ∧
    (∀ text brand : String, (check_mention text brand).1 = true →
      ∃ v i, v ∈ variationsOf brand ∧
        v.isPrefixOf ((lowerChars text.data).drop i) = true ∧
        (∀ j < i, v.isPrefixOf ((lowerChars text.data).drop j) = false) ∧
        (check_mention text brand).2 = some (mkContext text.data i v.length)) := by
  refine ⟨?_, ?_, ?_⟩
  · intro text brand
    rw [check_mention, mentionLoop_true_iff]
    constructor
    · rintro ⟨v, hv, hs⟩
      exact ⟨v, hv, (pyFind_isSome_iff v (lowerChars text.data)).mp hs⟩
    · rintro ⟨v, hv, hs⟩
      exact ⟨v, hv, (pyFind_isSome_iff v (lowerChars text.data)).mpr hs⟩
  · intro text brand h
    exact mentionLoop_false_no_context _ _ _ h
  · intro text brand h
    obtain ⟨v, i, hv, hf, hctx⟩ := mentionLoop_true_context _ _ _ h
    exact ⟨v, i, hv, pyFind_some_occurs _ _ _ hf, pyFind_some_min _ _ _ hf, hctx⟩

/-- Text starting with "acme" followed by 200 further characters. -/
def acmeText : String := String.mk ("acme".data ++ List.replicate 200 'x')

set_option maxRecDepth 8192 in
/-- C5, counterexample: searching `acmeText` for brand "Acme" matches at
index 0 with variant length 4; the code's context is
`text[0 : 0 + 4 + 100] ++ "..."` — "acme" plus 100 further characters —
while the claim's window of 100 characters after the match START would
end at `text[0 : 100]`, i.e. "acme" plus only 96 characters. -/
theorem check_mention_window_counterexample :
    (check_mention acmeText "Acme").2 =
      some (String.mk ("acme".data ++ List.replicate 100 'x' ++ "...".data)) ∧
    (check_mention acmeText "Acme").2 ≠
      some (String.mk ("acme".data ++ List.replicate 96 'x' ++ "...".data)) := by
  constructor
  · decide
  · decide

set_option maxRecDepth 8192 in
/-- C5, witness: the amended theorem's match branch at the concrete
"Acme" text. -/
theorem check_mention_spec_witness :
    (check_mention acmeText "Acme").1 = true ∧
    (∃ v i, v ∈ variationsOf "Acme" ∧
      v.isPrefixOf ((lowerChars acmeText.data).drop i) = true ∧
      (∀ j < i, v.isPrefixOf ((lowerChars acmeText.data).drop j) = false) ∧
      (check_mention acmeText "Acme").2 = some (mkContext acmeText.data i v.length)) :=
  ⟨by decide, check_mention_spec.2.2 acmeText "Acme" (by decide)⟩

/-! C6 -/

/-- The spec's example Organization block: `@type`, name, url, logo, a
two-element sameAs, and contactPoint — but NO `description`. -/
def exOrgBlock : Json :=
  Json.obj [("@type", Json.str "Organization"), ("name", Json.str "X"),
    ("url", Json.str "https://x.example"),
    ("logo", Json.str "https://x.example/logo.png"),
    ("sameAs", Json.arr [Json.str "a", Json.str "b"]),
    ("contactPoint", Json.obj [])]

/-- The page's JSON-LD blocks: one script carrying `exOrgBlock`. -/
def exOrgBlocks : List Json := extract_json_ld [some exOrgBlock]

/-- C6, counterexample: the claim says this block scores 25 of 25 with a
+5 complete-Organization bonus.  `RECOMMENDED_ORG_FIELDS` also requires
`description`, which the block lacks, so the bonus is withheld: the check
scores 5 (base) + 10 (high-value) + 0 (completeness) + 5 (sameAs) = 20. -/
theorem structured_data_example_counterexample :
    (check_structured_data exOrgBlocks).score = 20 ∧
    (check_structured_data exOrgBlocks).score ≠ 25 := by
  constructor
  · decide
  · decide

/-- C6, amended: the example block scores 20 of 25 — base 5, high-value
10, sameAs 5, and NO completeness bonus; instead an INFO finding reports
`description` as missing, and the complete-Organization PASS finding is
absent. -/
theorem structured_data_example_spec :
    (check_structured_data exOrgBlocks).score = 20 ∧
    (check_structured_data exOrgBlocks).max_score = 25 ∧
    hvPoints exOrgBlocks = 10 ∧
    orgPoints exOrgBlocks = 0 ∧
    saPoints exOrgBlocks = 5 ∧
    missingOrgFields exOrgBlock = ["description"] ∧
    sdOrgInfo ["description"] ∈ (check_structured_data exOrgBlocks).findings ∧
    sdOrgPass ∉ (check_structured_data exOrgBlocks).findings ∧
    sdBasePass 1 ∈ (check_structured_data exOrgBlocks).findings ∧
    sdHvPass "Organization" ∈ (check_structured_data exOrgBlocks).findings ∧
    sdSaPass 2 ∈ (check_structured_data exOrgBlocks).findings := by
  refine ⟨by decide, by decide, by decide, by decide, by decide, by decide,
    by decide, by decide, by decide, by decide, by decide⟩

/-! C7 -/

/-- An Organization object carrying all six recommended fields. -/
def exCompleteOrg : Json :=
  Json.obj [("@type", Json.str "Organization"), ("name", Json.str "X"),
    ("description", Json.str "d"), ("url", Json.str "u"),
    ("logo", Json.str "l"),
    ("sameAs", Json.arr [Json.str "a", Json.str "b"]),
    ("contactPoint", Json.obj [])]

/-- A JSON-LD block whose only content is `exCompleteOrg` nested inside a
`@graph` array. -/
def exGraphWrapper : Json :=
  Json.obj [("@context", Json.str "https://schema.org"),
    ("@graph", Json.arr [exCompleteOrg])]

/-- C7, counterexample: with the complete Organization nested inside
`@graph`, the wrapper block's types contain "Organization" (so it is the
first Organization block found), the nested object carries all six
recommended fields — yet the code inspects the WRAPPER's keys
(`@context`, `@graph`), finds all six fields missing, withholds the +5
bonus and emits an INFO listing all six fields.  The claim's "+5 iff the
first Organization object has all fields, also when nested inside
@graph" is false here. -/
theorem org_bonus_graph_counterexample :
    isOrgBlock exGraphWrapper = true ∧
    List.find? isOrgBlock [exGraphWrapper] = some exGraphWrapper ∧
    missingOrgFields exCompleteOrg = [] ∧
    orgPoints [exGraphWrapper] = 0 ∧
    (check_structured_data [exGraphWrapper]).score = 15 ∧
    sdOrgInfo ["contactPoint", "description", "logo", "name", "sameAs", "url"]
      ∈ (check_structured_data [exGraphWrapper]).findings ∧
    sdOrgPass ∉ (check_structured_data [exGraphWrapper]).findings := by
  refine ⟨by decide, rfl, by decide, by decide, by decide, by decide, by decide⟩

/-- C7, amended: for the first block whose collected types (including
types found recursively under `@graph`) contain Organization or
LocalBusiness, the +5 bonus is granted iff that BLOCK itself carries all
of {name, description, url, logo, sameAs, contactPoint} as top-level
keys (so an Organization nested in `@graph` is judged by the wrapper's
keys); otherwise an INFO finding lists the alphabetized missing fields. -/
theorem org_bonus_spec (blocks : List Json) (d : Json)
    (h : blocks.find? isOrgBlock = some d) :
    orgPoints blocks = (if missingOrgFields d = [] then 5 else 0) ∧
    isOrgBlock d = true ∧
    missingOrgFields d = orgFieldsSorted.filter (fun f => !(d.hasKey f)) ∧
    (missingOrgFields d = [] →
      sdOrgPass ∈ (check_structured_data blocks).findings) ∧
    (missingOrgFields d ≠ [] →
      sdOrgInfo (missingOrgFields d) ∈ (check_structured_data blocks).findings) := by
  obtain ⟨b, rest, rfl⟩ : ∃ b rest, blocks = b :: rest := by
    cases blocks with
    | nil => exact Option.noConfusion h
    | cons b rest => exact ⟨b, rest, rfl⟩
  have horg : orgFindings (b :: rest) =
      (if missingOrgFields d = [] then [sdOrgPass]
       else [sdOrgInfo (missingOrgFields d)]) := by
    rw [orgFindings, h]
  refine ⟨by rw [orgPoints, h], List.find?_some h, rfl, ?_, ?_⟩
  · intro hm
    rw [check_structured_data]
    simp [List.mem_append, horg, hm]
  · intro hm
    rw [check_structured_data]
    simp [List.mem_append, horg, hm]

/-- C7, witness: a complete top-level Organization earns the bonus and
the PASS finding; the theorem applied at that input. -/
theorem org_bonus_spec_witness :
    orgPoints [exCompleteOrg] =
      (if missingOrgFields exCompleteOrg = [] then 5 else 0) ∧
    sdOrgPass ∈ (check_structured_data [exCompleteOrg]).findings :=
  ⟨(org_bonus_spec [exCompleteOrg] exCompleteOrg rfl).1,
   (org_bonus_spec [exCompleteOrg] exCompleteOrg rfl).2.2.2.1 (by decide)⟩

/-! C8 -/

/-- The count the claim speaks of: NON-EMPTY lines of the stripped body
(the code instead counts all split pieces, empty interior lines
included). -/
def nonEmptyLineCount (body : String) : Nat :=
  ((splitLines (pyStrip body.data)).filter (fun l => !l.isEmpty)).length

/-- A 200 text/plain llms.txt whose body has two non-empty lines
separated by a blank line. -/
def llmsBlankResp : HttpResponse :=
  { status := 200, contentType := "text/plain", body := "a\n\nb" }

/-- C8, counterexample: the claim awards the +5 iff the body has at least
3 NON-EMPTY lines, else a WARNING.  The body `"a\n\nb"` has 2 non-empty
lines, yet `split("\n")` yields 3 pieces (the blank interior line
counts), so the code scores 15+5 = 20 and emits no too-short WARNING —
contradicting the claim's "only if" direction. -/
theorem llms_txt_blank_lines_counterexample :
    nonEmptyLineCount "a\n\nb" = 2 ∧
    lineCount "a\n\nb" = 3 ∧
    (check_llms_txt (some llmsBlankResp) none).score = 20 ∧
    ((check_llms_txt (some llmsBlankResp) none).findings.all
      (fun f => f.message != "llms.txt exists but is very short")) = true := by
  refine ⟨by decide, by decide, by decide, by decide⟩

/-- C8, amended: for a 200 response with a text content-type, the check
adds 15 points and adds 5 more iff `len(body.strip().split("\n")) ≥ 3` —
a count of ALL split pieces, blank interior lines included — emitting the
good-content PASS and no too-short WARNING in that case, and the
too-short WARNING with only 15 points otherwise; the total score is the
llms.txt contribution plus the llms-full.txt contribution. -/
theorem llms_txt_quality_spec (ct body : String) (full : Option HttpResponse)
    (hct : "text/".data.isPrefixOf ct.data = true) :
    (3 ≤ lineCount body →
      basicPoints (some { status := 200, contentType := ct, body := body }) = 20 ∧
      ltGoodPass (lineCount body) ∈
        (check_llms_txt (some { status := 200, contentType := ct, body := body })
          full).findings ∧
      (∀ n, ltShortWarn n ∉
        (check_llms_txt (some { status := 200, contentType := ct, body := body })
          full).findings)) ∧
    (lineCount body < 3 →
      basicPoints (some { status := 200, contentType := ct, body := body }) = 15 ∧
      ltShortWarn (lineCount body) ∈
        (check_llms_txt (some { status := 200, contentType := ct, body := body })
          full).findings) ∧
    (check_llms_txt (some { status := 200, contentType := ct, body := body })
        full).score =
      basicPoints (some { status := 200, contentType := ct, body := body })
        + fullPoints full := by
  have htext : textOk { status := 200, contentType := ct, body := body } = true := by
    simp [textOk, hct]
  refine ⟨?_, ?_, rfl⟩
  · intro h3
    have hnl : ¬ lineCount body < 3 := Nat.not_lt.mpr h3
    refine ⟨?_, ?_, ?_⟩
    · rw [basicPoints, if_pos htext, if_neg hnl]
    · rw [check_llms_txt]
      simp only [List.mem_append]
      left; left
      rw [basicFindings, if_pos htext, if_neg hnl]
      simp
    · intro n
      rw [check_llms_txt]
      simp only [List.mem_append, not_or]
      refine ⟨⟨?_, ?_⟩, ?_⟩
      · rw [basicFindings, if_pos htext, if_neg hnl]
        intro hmem
        rw [List.mem_append] at hmem
        rcases hmem with hmem | hmem
        · simp [ltShortWarn, ltGoodPass, Finding.mk.injEq] at hmem
        · revert hmem
          split
          · simp [ltShortWarn, ltHeaderInfo, Finding.mk.injEq]
          · simp
      · rw [fullFindings]
        by_cases hfl : hasFull full = true
        · rw [if_pos hfl]
          simp [ltShortWarn, ltFullPass, Finding.mk.injEq]
        · rw [if_neg hfl]
          simp
      · simp [hasBasic, htext]
  · intro hlt
    refine ⟨?_, ?_⟩
    · rw [basicPoints, if_pos htext, if_pos hlt]
    · rw [check_llms_txt]
      simp only [List.mem_append]
      left; left
      rw [basicFindings, if_pos htext, if_pos hlt]
      simp

/-- Five non-empty lines, the claim's particular example. -/
def fiveLines : String := "l1\nl2\nl3\nl4\nl5"

/-- The 200 text/plain response carrying `fiveLines`. -/
def fiveLinesResp : HttpResponse :=
  { status := 200, contentType := "text/plain", body := fiveLines }

/-- C8, witness: the amended theorem at a text/plain body of 5 non-empty
lines — 20 points for the llms.txt branch, the PASS finding present, and
no too-short warning. -/
theorem llms_txt_quality_witness :
    3 ≤ lineCount fiveLines ∧
    basicPoints (some fiveLinesResp) = 20 ∧
    ltGoodPass (lineCount fiveLines) ∈
      (check_llms_txt (some fiveLinesResp) none).findings ∧
    (∀ n, ltShortWarn n ∉ (check_llms_txt (some fiveLinesResp) none).findings) :=
  ⟨by decide,
   ((llms_txt_quality_spec "text/plain" fiveLines none (by decide)).1 (by decide)).1,
   ((llms_txt_quality_spec "text/plain" fiveLines none (by decide)).1 (by decide)).2.1,
   ((llms_txt_quality_spec "text/plain" fiveLines none (by decide)).1 (by decide)).2.2⟩

/-! C9 -/

/-- A plain 404 response, the "file absent" outcome of an auxiliary
fetch. -/
def resp404 : HttpResponse := { status := 404 }

/-- C9, counterexample: the claim says a network failure fetching
robots.txt contributes the same +2 INFO as an absent robots.txt.  In the
code a failure (`except httpx.RequestError`) adds 0 points with the INFO
"Could not check robots.txt", while a 404 adds 2 points with the INFO
"No robots.txt (all crawlers allowed by default)": with everything else
fixed, the technical check scores 2 on failure but 4 on absence. -/
theorem robots_failure_counterexample :
    (check_technical "https" none none false none).score = 2 ∧
    (check_technical "https" (some resp404) none false none).score = 4 ∧
    tRobotsFailInfo ∈ (check_technical "https" none none false none).findings ∧
    tRobotsAbsentInfo ∉ (check_technical "https" none none false none).findings := by
  refine ⟨by decide, by decide, by decide, by decide⟩

/-- C9, amended: auxiliary fetch failures are swallowed (each is a local
value, never an audit abort), but they are not all equivalent to
absence: for /llms.txt and /llms-full.txt a failure yields exactly the
same CheckResult as a non-200 response; for robots.txt a failure yields
0 points and INFO "Could not check robots.txt" whereas absence yields +2
and the absent-INFO; for sitemap.xml a failure yields no points and no
finding whereas absence yields no points and an INFO finding.  The
technical score decomposes as the sum of its five independent parts. -/
theorem aux_failure_spec :
    (∀ full, check_llms_txt none full = check_llms_txt (some resp404) full) ∧
    (∀ basic, check_llms_txt basic none = check_llms_txt basic (some resp404)) ∧
    robotsPart none = (0, [tRobotsFailInfo]) ∧
    robotsPart (some resp404) = (2, [tRobotsAbsentInfo]) ∧
    sitemapPart none = (0, []) ∧
    sitemapPart (some resp404) = (0, [tSitemapInfo]) ∧
    (∀ scheme robots sitemap vp lang,
      (check_technical scheme robots sitemap vp lang).score =
        (httpsPart scheme).1 + (robotsPart robots).1 + (sitemapPart sitemap).1
          + (viewportPart vp).1 + (langPart lang).1) := by
  refine ⟨?_, ?_, rfl, by decide, rfl, by decide, fun _ _ _ _ _ => rfl⟩
  · intro full
    rw [check_llms_txt, check_llms_txt]
    simp [basicPoints, basicFindings, hasBasic, textOk, resp404]
  · intro basic
    rw [check_llms_txt, check_llms_txt]
    simp [fullPoints, fullFindings, hasFull, textOk, resp404]

end GeoAudit
